import Mathlib

/-!
Verification development for the `algorand_BYOP` repository.

Each Python function relevant to the spec claims is shallowly embedded as an
executable Lean definition.  Side effects (HTTP exchanges, the arXiv client,
the LLM, the Algorand node, the file system) are passed in explicitly as
environment records, so every embedded function is a pure function of its
inputs and its environment.  Fallible Python code is modelled with
`Option`/`Except`.
-/

set_option maxHeartbeats 1000000
set_option maxRecDepth 10000

/-! ## Python string primitives -/

/-- Characters treated as whitespace by Python's `str.strip()`. -/
def pyIsSpace (c : Char) : Bool :=
  c = ' ' || c = '\t' || c = '\n' || c = '\r' || c = '\x0b' || c = '\x0c'

/-- Python `str.strip()`: remove leading and trailing whitespace. -/
def pyStrip (s : String) : String :=
  String.mk (((s.data.dropWhile pyIsSpace).reverse.dropWhile pyIsSpace).reverse)

/-! ## C4: `ARC19.upload_metadata` (src/arc19.py lines 44-66)

The HTTP exchange with the Pinata pinning service is the environment; we model
the service's reply as a status code together with the fields of the JSON
body.  `upload_metadata` posts the file and then inspects the reply exactly as
the source does: on status 200 it returns `response.json().get("IpfsHash")`,
otherwise it prints an error and returns `None`. -/

/-- Reply of the pinning service: HTTP status code and JSON object fields. -/
structure PinataResponse where
  status_code : Nat
  jsonFields : List (String × String)

/-- Python `dict.get`: `some` of the value when the key is present, else `none`. -/
def jsonGet (fields : List (String × String)) (key : String) : Option String :=
  match fields.find? (fun kv => kv.1 = key) with
  | some kv => some kv.2
  | none => none

/-- Embedding of `ARC19.upload_metadata` from `src/arc19.py`: the file bytes
are posted to the service (part of the environment producing `response`);
the function returns the `IpfsHash` field on status 200 and `None` otherwise. -/
def upload_metadata (response : PinataResponse) : Option String :=
  if response.status_code = 200 then jsonGet response.jsonFields "IpfsHash"
  else none

/-! ## C3: `fetch_paper` (src/Extract_paper_data.py)

The environment holds the initial content of the history file
`fetched_papers.txt` (or `none` when the file does not exist), the list of
papers returned by the arXiv client, the permutation realised by
`random.shuffle`, and the outcome of each PDF download
(`requests.get` + `raise_for_status`, which may raise).

`fetch_paper` returns the list of papers written to the output file together
with the list of URLs appended to the history file, in order.  An exception
raised by a download aborts the loop (it is caught by the outer
`try`/`except`), leaving the effects of the earlier iterations in place. -/

/-- Metadata of one arXiv search result, as used by `fetch_paper`. -/
structure ArxivPaper where
  title : String
  abstract : String
  pdf_url : String
  published : String
deriving DecidableEq, Repr

/-- Environment of one run of `fetch_paper`. -/
structure FetchEnv where
  history0 : Option String
  results : List ArxivPaper
  shuffled : List ArxivPaper → List ArxivPaper
  download : String → Except String String

/-- Splitting a character list at newline characters, keeping empty pieces. -/
def splitLinesAux : List Char → List Char → List String
  | [], acc => [String.mk acc.reverse]
  | c :: rest, acc =>
    if c = '\n' then String.mk acc.reverse :: splitLinesAux rest []
    else splitLinesAux rest (c :: acc)

/-- Lines of a file's content (Python iterates a file line by line). -/
def historyLines (content : String) : List String := splitLinesAux content.data []

/-- Embedding of `load_fetched_papers`: the set of stripped, non-blank lines
of the history file; the empty set when the file does not exist. -/
def load_fetched_papers (history0 : Option String) : List String :=
  match history0 with
  | some content => ((historyLines content).map pyStrip).filter (fun l => l ≠ "")
  | none => []

/-- Per-paper loop body of `fetch_paper`: for each selected paper, download the
PDF (an exception stops the whole loop), write the paper's entry to the output
file, then append its `pdf_url` to the history file via `save_fetched_paper`.
Returns (papers written to the output file, URLs appended to the history). -/
def fetchLoop (env : FetchEnv) : List ArxivPaper → List ArxivPaper × List String
  | [] => ([], [])
  | p :: rest =>
    match env.download p.pdf_url with
    | .error _ => ([], [])
    | .ok _ =>
      let wa := fetchLoop env rest
      (p :: wa.1, p.pdf_url :: wa.2)

/-- Selection phase of `fetch_paper`: drop `start_index` results, filter out
papers whose `pdf_url` is in the loaded history, shuffle, and take up to
`max_results`.  The `ValueError` branches of the source (no results at all,
no new papers) are caught by the outer handler and select nothing. -/
def fetchSelect (env : FetchEnv) (max_results start_index : Nat) :
    List ArxivPaper :=
  if env.results.isEmpty then []
  else if ((env.results.drop start_index).filter
      (fun p => !((load_fetched_papers env.history0).contains p.pdf_url))).isEmpty
    then []
  else (env.shuffled ((env.results.drop start_index).filter
      (fun p => !((load_fetched_papers env.history0).contains p.pdf_url)))).take
    max_results

/-- Embedding of `fetch_paper` from `src/Extract_paper_data.py`: load the
history, filter the paged results against it, shuffle, select up to
`max_results` papers, and process them. -/
def fetch_paper (env : FetchEnv) (max_results start_index : Nat) :
    List ArxivPaper × List String :=
  fetchLoop env (fetchSelect env max_results start_index)

/-- Papers written by `fetchLoop` are drawn from its input list. -/
theorem fetchLoop_subset (env : FetchEnv) (l : List ArxivPaper) :
    ∀ p ∈ (fetchLoop env l).1, p ∈ l := by
  induction l with
  | nil => intro p hp; simp [fetchLoop] at hp
  | cons q rest ih =>
    intro p hp
    simp only [fetchLoop] at hp
    cases hdl : env.download q.pdf_url with
    | error e => rw [hdl] at hp; simp at hp
    | ok v =>
      rw [hdl] at hp
      simp only [List.mem_cons] at hp ⊢
      rcases hp with h | h
      · exact Or.inl h
      · exact Or.inr (ih p h)

/-- The URLs appended by `fetchLoop` are exactly the URLs of the written papers. -/
theorem fetchLoop_urls (env : FetchEnv) (l : List ArxivPaper) :
    (fetchLoop env l).2 = (fetchLoop env l).1.map (fun p => p.pdf_url) := by
  induction l with
  | nil => simp [fetchLoop]
  | cons q rest ih =>
    simp only [fetchLoop]
    cases hdl : env.download q.pdf_url with
    | error e => simp
    | ok v => simp [ih]

/-- Environment witnessing the counterexample to C3 as stated: the history
file holds the single line `" u"` and arXiv returns one paper whose
`pdf_url` is the very same string `" u"`. -/
def c3CtrEnv : FetchEnv where
  history0 := some " u\n"
  results := [⟨"T", "A", " u", "D"⟩]
  shuffled := fun l => l
  download := fun _ => .ok "pdfbytes"

/-- C3 (counterexample): the claim "no paper whose pdf_url already appears as
a line of the history file is written to the output file" is false as stated:
`load_fetched_papers` strips each history line before comparing, so a paper
whose `pdf_url` is `" u"` is written even though `" u"` is literally a line of
the history file. -/
theorem fetch_paper_dedup_counterexample :
    " u" ∈ historyLines " u\n" ∧
    (fetch_paper c3CtrEnv 1 0).1 = [⟨"T", "A", " u", "D"⟩] := by
  constructor
  · decide
  · rfl

/-- Every paper selected by `fetchSelect` passed the history filter. -/
theorem fetchSelect_not_in_history (env : FetchEnv)
    (hperm : ∀ l : List ArxivPaper, (env.shuffled l).Perm l)
    (max_results start_index : Nat) :
    ∀ p ∈ fetchSelect env max_results start_index,
      (load_fetched_papers env.history0).contains p.pdf_url = false := by
  intro p hp
  unfold fetchSelect at hp
  split at hp
  · simp at hp
  · split at hp
    · simp at hp
    · have h2 : p ∈ env.shuffled ((env.results.drop start_index).filter
          (fun p => !((load_fetched_papers env.history0).contains p.pdf_url))) :=
        List.mem_of_mem_take hp
      have h3 := (hperm _).mem_iff.mp h2
      have h4 := List.of_mem_filter h3
      simpa using h4

/-- C3 (amended): no paper whose `pdf_url` equals the whitespace-stripped
content of a non-blank line of the history file at the start of the run is
written to the output file, and the `pdf_url` of every paper written to the
output file is appended to the history file during the run. -/
theorem fetch_paper_dedup (env : FetchEnv)
    (hperm : ∀ l : List ArxivPaper, (env.shuffled l).Perm l)
    (max_results start_index : Nat) :
    (∀ p ∈ (fetch_paper env max_results start_index).1,
        ¬ ((load_fetched_papers env.history0).contains p.pdf_url = true)) ∧
    (∀ p ∈ (fetch_paper env max_results start_index).1,
        p.pdf_url ∈ (fetch_paper env max_results start_index).2) := by
  constructor
  · intro p hp
    have hsel : p ∈ fetchSelect env max_results start_index :=
      fetchLoop_subset env _ p hp
    have h := fetchSelect_not_in_history env hperm max_results start_index p hsel
    intro hc
    rw [h] at hc
    cases hc
  · intro p hp
    have hurls := fetchLoop_urls env (fetchSelect env max_results start_index)
    show p.pdf_url ∈ (fetchLoop env (fetchSelect env max_results start_index)).2
    rw [hurls]
    exact List.mem_map_of_mem _ hp

/-- Environment for the C3 witness: history holds line `"u"`, arXiv returns a
paper with the fresh URL `"v"`, which therefore gets written. -/
def c3WitEnv : FetchEnv where
  history0 := some "u\n"
  results := [⟨"T", "A", "v", "D"⟩]
  shuffled := fun l => l
  download := fun _ => .ok "pdfbytes"

/-- C3 witness: the amended theorem applied to a concrete run. -/
theorem fetch_paper_dedup_witness :
    ¬ ((load_fetched_papers c3WitEnv.history0).contains
        (ArxivPaper.mk "T" "A" "v" "D").pdf_url = true) := by
  have h := (fetch_paper_dedup c3WitEnv (fun l => List.Perm.refl l) 1 0).1
  exact h ⟨"T", "A", "v", "D"⟩ (by decide)

/-- C4: `upload_metadata` returns the `IpfsHash` field of the service's JSON
reply when the HTTP status code is 200, and `None` for every other status. -/
theorem upload_metadata_status (response : PinataResponse) :
    (response.status_code = 200 →
      upload_metadata response = jsonGet response.jsonFields "IpfsHash")
  ∧ (response.status_code ≠ 200 → upload_metadata response = none) := by
  constructor
  · intro h; simp [upload_metadata, h]
  · intro h; simp [upload_metadata, h]

/-- C4 witness: a 200 reply yields its `IpfsHash` field; a 500 reply yields none. -/
theorem upload_metadata_status_witness :
    upload_metadata ⟨200, [("IpfsHash", "QmHash")]⟩ = some "QmHash" ∧
    upload_metadata ⟨500, [("IpfsHash", "QmHash")]⟩ = none := by
  constructor
  · have h := (upload_metadata_status ⟨200, [("IpfsHash", "QmHash")]⟩).1 rfl
    rw [h]; rfl
  · exact (upload_metadata_status ⟨500, [("IpfsHash", "QmHash")]⟩).2 (by decide)

/-! ## C6: `summarize_text` (src/Summarizer_of_data.py lines 7-39)

The LLM invocation `chain.invoke({"text": text})` is the environment: it
either returns the summary string or raises.  The `try` block of the source
covers the invocation and the bullet-point post-processing; any exception
there is caught and the literal string `"Summarization failed."` is returned.
Python string operations are embedded with executable list recursions. -/

/-- Does `sep` occur at the head of `hay`? -/
def startsWithList : List Char → List Char → Bool
  | [], _ => true
  | _ :: _, [] => false
  | a :: as, b :: bs => a = b && startsWithList as bs

/-- Does `needle` occur anywhere inside `hay` (Python's `in` on strings)? -/
def containsSub (needle : List Char) : List Char → Bool
  | [] => needle.isEmpty
  | c :: rest => startsWithList needle (c :: rest) || containsSub needle rest

/-- Python `needle in hay` for strings. -/
def pyIn (needle hay : String) : Bool := containsSub needle.data hay.data

/-- Fuelled worker for `pySplit`; the fuel is the input length, which always
suffices because each step consumes at least one character. -/
def splitOnStrFuel (sep : List Char) : Nat → List Char → List Char → List String
  | 0, l, acc => [String.mk (acc.reverse ++ l)]
  | _ + 1, [], acc => [String.mk acc.reverse]
  | fuel + 1, c :: rest, acc =>
    if startsWithList sep (c :: rest) then
      String.mk acc.reverse :: splitOnStrFuel sep fuel (List.drop (sep.length - 1) rest) []
    else splitOnStrFuel sep fuel rest (c :: acc)

/-- Python `s.split(sep)` for a non-empty separator, keeping empty pieces. -/
def pySplit (s sep : String) : List String :=
  splitOnStrFuel sep.data s.data.length s.data []

/-- Python `str.lower()` (ASCII case folding suffices for the sources). -/
def pyLower (s : String) : String := String.mk (s.data.map Char.toLower)

/-- Bullet-point post-processing inside the `try` of `summarize_text`:
when the lowered summary contains `"bullet points"`, take the text after the
first `"bullet points:"` (the subscript `[1]` raises `IndexError` when the
case-sensitive separator is absent), strip each line and prepend `"* "`. -/
def postProcess (summary : String) : Except String String :=
  if pyIn "bullet points" (pyLower summary) then
    match (pySplit summary "bullet points:").get? 1 with
    | none => .error "IndexError"
    | some s2 =>
      .ok (String.intercalate "\n"
        (((pySplit s2 "\n").map pyStrip).map (fun point => "* " ++ point)))
  else .ok summary

/-- Embedding of `summarize_text`: invoke the chain (environment), post-process,
and catch every exception of either step, returning `"Summarization failed."`.
The Lean return type `String` (not `Except`) reflects that the Python function
itself never lets an exception of the guarded region escape. -/
def summarize_text (invokeResult : Except String String) : String :=
  match invokeResult >>= postProcess with
  | .ok s => s
  | .error _ => "Summarization failed."

/-- C6: `summarize_text` always returns a string: the failure string when the
LLM invocation raises or the post-processing raises `IndexError`, and the
(possibly bullet-pointed) summary otherwise. -/
theorem summarize_text_spec (r : Except String String) :
    (∀ e, r = .error e → summarize_text r = "Summarization failed.")
  ∧ (∀ s, r = .ok s → postProcess s = .error "IndexError" →
      summarize_text r = "Summarization failed.")
  ∧ (∀ s v, r = .ok s → postProcess s = .ok v → summarize_text r = v) := by
  refine ⟨?_, ?_, ?_⟩
  · intro e he; subst he; rfl
  · intro s hs hpp; subst hs
    unfold summarize_text
    rw [show (Except.ok s >>= postProcess) = postProcess s from rfl, hpp]
  · intro s v hs hpp; subst hs
    unfold summarize_text
    rw [show (Except.ok s >>= postProcess) = postProcess s from rfl, hpp]

/-- C6 witness: a raising invocation yields the failure string; a plain
summary is returned unchanged; a summary announcing bullet points without the
exact separator trips the `IndexError` path and also yields the failure
string. -/
theorem summarize_text_spec_witness :
    summarize_text (.error "connection refused") = "Summarization failed." ∧
    summarize_text (.ok "plain summary") = "plain summary" ∧
    summarize_text (.ok "Bullet Points follow") = "Summarization failed." := by
  refine ⟨?_, ?_, ?_⟩
  · exact (summarize_text_spec (.error "connection refused")).1 _ rfl
  · exact (summarize_text_spec (.ok "plain summary")).2.2 _ _ rfl (by rfl)
  · exact (summarize_text_spec (.ok "Bullet Points follow")).2.1 _ rfl (by rfl)

/-! ## C7 and C5: invalid Python variants

`src/Summarizer_of_data.py` begins with a Markdown code fence and
`src/latest_topic_gatherer.py` begins with `**` followed by a fence: their
sources reach a backtick outside any string literal or comment, and Python 3
has no backtick token, so both modules raise `SyntaxError` at load time.
`src/Data_gather_agent.py` parses, but the `except` branch of
`search_blockchain_papers` references the name `langchain`, which no import,
assignment or builtin binds.  `save_to_pdf` in `src/Summarizer_of_data.py`
references the name `letter` (the ReportLab page size), which nothing in the
module binds, so even in isolation every call of it raises `NameError` before
any document is built. -/

/-- Sound lexical criterion modelled from the Python 3 lexical grammar (the
Python language itself is not part of `src/`): a string literal begins at a
quote character and a comment at `#`; if neither a quote nor `#` occurs
before the first backtick of a module's source text, the tokenizer reaches
that backtick outside any string or comment, and since Python 3 has no
backtick token the module fails to parse (`SyntaxError` on every import). -/
def backtickBreaksModule (source : String) : Bool :=
  (decide ((source.data.takeWhile (fun c => c ≠ '\x60')).length
      < source.data.length)) &&
  (source.data.takeWhile (fun c => c ≠ '\x60')).all
    (fun c => c ≠ '\'' && c ≠ '"' && c ≠ '#')

/-- Opening text (first two lines) of `src/Summarizer_of_data.py`. -/
def summarizerOfDataOpening : String :=
  "\x60\x60\x60python\nfrom langchain_ollama import OllamaLLM\n"

/-- Opening text (first two lines) of `src/latest_topic_gatherer.py`. -/
def latestTopicGathererOpening : String :=
  "**\n\x60\x60\x60python\n"

/-- Python builtins referenced anywhere in the modules under study; name
resolution falls back to these after locals and module globals. -/
def pythonBuiltins : List String :=
  ["print", "str", "isinstance", "len", "int", "float", "list", "dict",
   "set", "range", "enumerate", "open", "bool", "all", "any", "Exception",
   "ValueError", "TypeError", "KeyError", "IndexError", "FileNotFoundError"]

/-- Names bound at module level in `src/Data_gather_agent.py` (imports and
top-level definitions). -/
def dataGatherAgentModuleBindings : List String :=
  ["AgentExecutor", "create_react_agent", "ArxivQueryRun", "ArxivAPIWrapper",
   "OllamaLLM", "PromptTemplate", "DataGatherAgent", "create_agent", "prompt",
   "search_blockchain_papers"]

/-- Names bound inside `search_blockchain_papers` (parameters, assignments,
comprehension and loop variables, the `except ... as e` binder). -/
def searchBlockchainPapersLocals : List String :=
  ["query", "max_results", "data_gather_agent", "input_query", "prompt_input",
   "agent", "results", "papers", "result", "title", "authors", "summary",
   "paper_info", "e", "tool"]

/-- Names referenced by the `except` branch of `search_blockchain_papers`
(src/Data_gather_agent.py lines 75-79). -/
def searchBlockchainPapersExceptRefs : List String :=
  ["isinstance", "e", "langchain", "print", "str"]

/-- C7: some near-duplicate variants are invalid Python: the sources of
`Summarizer_of_data.py` and `latest_topic_gatherer.py` reach a backtick
outside any string or comment (no Python 3 token starts with a backtick, so
both modules fail to parse and every load or call fails), and
`Data_gather_agent.py` references the undefined name `langchain` in the
`except` branch of `search_blockchain_papers`. -/
theorem invalid_variants :
    backtickBreaksModule summarizerOfDataOpening = true ∧
    backtickBreaksModule latestTopicGathererOpening = true ∧
    ("langchain" ∈ searchBlockchainPapersExceptRefs ∧
     "langchain" ∉ dataGatherAgentModuleBindings ++ searchBlockchainPapersLocals ∧
     "langchain" ∉ pythonBuiltins) := by
  refine ⟨by decide, by decide, by decide, by decide, by decide⟩

/-- Names bound at module level in `src/Summarizer_of_data.py` (imports and
top-level definitions; the module also assigns `file_path` and
`summary_text` at its foot). -/
def summarizerModuleBindings : List String :=
  ["OllamaLLM", "PromptTemplate", "re", "os", "summarize_text",
   "extract_text_from_file", "extract_paper_title", "save_to_pdf",
   "file_path", "summary_text"]

/-- Names bound inside `save_to_pdf` (parameters, the body-level imports of
`os` and the ReportLab names, assignments, and the loop variable). -/
def saveToPdfLocalBindings : List String :=
  ["summary", "paper_title", "output_dir", "os", "sanitized_title",
   "pdf_filename", "SimpleDocTemplate", "Paragraph", "getSampleStyleSheet",
   "doc", "styles", "story", "point"]

/-- Names referenced by the body of `save_to_pdf`
(src/Summarizer_of_data.py lines 80-109). -/
def saveToPdfBodyRefs : List String :=
  ["os", "re", "output_dir", "paper_title", "sanitized_title", "pdf_filename",
   "SimpleDocTemplate", "letter", "getSampleStyleSheet", "Paragraph",
   "styles", "story", "summary", "isinstance", "str", "point", "doc"]

/-- C5 (code bug): `save_to_pdf` can never produce a PDF: its module's source
fails to parse (opening Markdown fence), and independently its body evaluates
`letter` at the `SimpleDocTemplate(..., pagesize=letter)` call, a name bound
neither locally, nor at module level, nor as a builtin, so every call raises
`NameError` before `doc.build(story)` is reached. -/
theorem save_to_pdf_undefined_name :
    backtickBreaksModule summarizerOfDataOpening = true ∧
    ("letter" ∈ saveToPdfBodyRefs ∧
     "letter" ∉ summarizerModuleBindings ++ saveToPdfLocalBindings ∧
     "letter" ∉ pythonBuiltins) := by
  refine ⟨by decide, by decide, by decide, by decide⟩

/-! ## C8: `create_research_database` / `save_paper_to_database`
(src/Agents/database_tools.py)

The `papers` table is modelled as a list of rows with an autoincrementing
integer primary key and a `UNIQUE` `arxiv_id` column.  SQLite's
`INSERT OR REPLACE` deletes every row that conflicts on a uniqueness
constraint (two rows conflict on `arxiv_id` only when both values are
non-NULL and equal; NULLs never conflict) and then inserts the new row with a
fresh rowid. -/

/-- Input record of `save_paper_to_database`: the parsed JSON paper dict,
with the fields the function reads (`paper.get(...)` defaults applied by the
embedding of the extraction below). -/
structure PyPaper where
  id : Option String
  title : String
  summary : String
  authors : List String
  published : String
  categories : List String
  pdf_url : String
  citation_count : Int
  keywords : List String
  ai_summary : String
  complexity_score : Rat
deriving DecidableEq, Repr

/-- Minimal JSON escaping for `json.dumps` of a string. -/
def jsonEscape (s : String) : String :=
  String.mk (s.data.foldr
    (fun c acc => if c = '\\' || c = '"' then '\\' :: c :: acc else c :: acc) [])

/-- Python `json.dumps` of a list of strings. -/
def jsonDumpsStrList (l : List String) : String :=
  "[" ++ String.intercalate ", " (l.map (fun s => "\"" ++ jsonEscape s ++ "\"")) ++ "]"

/-- Python `s.split('/')[-1]`. -/
def lastPathComponent (s : String) : String :=
  (pySplit s "/").getLastD s

/-- Values of one `papers` row as bound by the `INSERT OR REPLACE` statement
of `save_paper_to_database`. -/
structure RowVals where
  arxiv_id : Option String
  title : String
  abstract : String
  authors : String
  published_date : String
  categories : String
  pdf_url : String
  citation_count : Int
  keywords : String
  summary : String
  complexity_score : Rat
deriving DecidableEq, Repr

/-- One stored row: autoincrement rowid plus the column values. -/
structure PaperRow where
  rowid : Nat
  vals : RowVals
deriving DecidableEq, Repr

/-- The `papers` table: rows plus the next autoincrement id. -/
structure PapersTable where
  rows : List PaperRow
  nextId : Nat
deriving DecidableEq, Repr

/-- Embedding of `create_research_database`: fresh empty `papers` table
(SQLite rowids start at 1). -/
def create_research_database : PapersTable := ⟨[], 1⟩

/-- Parameter extraction of `save_paper_to_database`:
`paper.get('id', '').split('/')[-1] if paper.get('id') else None` and the
remaining ten bound values. -/
def rowValsOfPaper (p : PyPaper) : RowVals where
  arxiv_id :=
    match p.id with
    | some s => if s = "" then none else some (lastPathComponent s)
    | none => none
  title := p.title
  abstract := p.summary
  authors := jsonDumpsStrList p.authors
  published_date := p.published
  categories := jsonDumpsStrList p.categories
  pdf_url := p.pdf_url
  citation_count := p.citation_count
  keywords := jsonDumpsStrList p.keywords
  summary := p.ai_summary
  complexity_score := p.complexity_score

/-- Do two `arxiv_id` values conflict under the `UNIQUE` constraint?
SQLite treats NULLs as distinct, so only equal non-NULL values conflict. -/
def uniqueConflict (a b : Option String) : Bool :=
  match a, b with
  | some x, some y => x = y
  | _, _ => false

/-- SQLite `INSERT OR REPLACE INTO papers ... VALUES (...)`: delete the rows
conflicting on `arxiv_id`, then insert the new row under a fresh rowid. -/
def insertOrReplacePaper (t : PapersTable) (v : RowVals) : PapersTable where
  rows := t.rows.filter (fun r => !(uniqueConflict r.vals.arxiv_id v.arxiv_id))
    ++ [⟨t.nextId, v⟩]
  nextId := t.nextId + 1

/-- Embedding of `save_paper_to_database`. -/
def save_paper_to_database (p : PyPaper) (t : PapersTable) : PapersTable :=
  insertOrReplacePaper t (rowValsOfPaper p)

/-- Rows of `t` whose `arxiv_id` equals `some a`. -/
def rowsWithKey (t : PapersTable) (a : String) : List PaperRow :=
  t.rows.filter (fun r => r.vals.arxiv_id = some a)

/-- Saving the same paper `n` times into a database created by
`create_research_database`. -/
def saveTimes (p : PyPaper) : Nat → PapersTable
  | 0 => create_research_database
  | n + 1 => save_paper_to_database p (saveTimes p n)

/-- After a save whose record carries key `some a`, exactly the inserted row
matches that key, whatever the previous table contents were. -/
theorem rowsWithKey_after_save (p : PyPaper) (t : PapersTable) (a : String)
    (hid : (rowValsOfPaper p).arxiv_id = some a) :
    rowsWithKey (save_paper_to_database p t) a = [⟨t.nextId, rowValsOfPaper p⟩] := by
  unfold rowsWithKey save_paper_to_database insertOrReplacePaper
  rw [List.filter_append]
  have h1 : (t.rows.filter
      (fun r => !(uniqueConflict r.vals.arxiv_id (rowValsOfPaper p).arxiv_id))).filter
      (fun r => decide (r.vals.arxiv_id = some a)) = [] := by
    rw [List.filter_eq_nil_iff]
    intro r hr
    have h2 := List.of_mem_filter hr
    simp only [Bool.not_eq_true'] at h2
    rw [hid] at h2
    intro hc
    rw [decide_eq_true_iff] at hc
    rw [hc] at h2
    simp [uniqueConflict] at h2
  rw [h1]
  simp only [List.nil_append, List.filter_cons, List.filter_nil]
  rw [hid]
  simp

/-- C8: `save_paper_to_database` is idempotent with respect to `arxiv_id`:
for a paper record whose extracted `arxiv_id` is non-NULL, saving it any
number of times into a freshly created database leaves at most one row with
that `arxiv_id`; after at least one save, exactly one such row exists and it
holds the most recently saved values. -/
theorem save_paper_to_database_idempotent (p : PyPaper) (a : String) (n : Nat)
    (hid : (rowValsOfPaper p).arxiv_id = some a) :
    (rowsWithKey (saveTimes p n) a).length ≤ 1 ∧
    (1 ≤ n → ∃ rid : Nat,
      rowsWithKey (saveTimes p n) a = [⟨rid, rowValsOfPaper p⟩]) := by
  cases n with
  | zero =>
    constructor
    · simp [saveTimes, create_research_database, rowsWithKey]
    · intro h; omega
  | succ m =>
    have h := rowsWithKey_after_save p (saveTimes p m) a hid
    constructor
    · rw [show saveTimes p (m + 1) = save_paper_to_database p (saveTimes p m) from rfl,
        h]
      simp
    · intro _
      exact ⟨(saveTimes p m).nextId,
        by rw [show saveTimes p (m + 1) = save_paper_to_database p (saveTimes p m) from rfl, h]⟩

/-- Concrete paper record for the C8 witness. -/
def c8Paper : PyPaper where
  id := some "http://arxiv.org/abs/2401.00001v1"
  title := "T"
  summary := "S"
  authors := ["A"]
  published := "2024-01-01"
  categories := ["cs.AI"]
  pdf_url := "http://arxiv.org/pdf/2401.00001v1"
  citation_count := 0
  keywords := ["k"]
  ai_summary := "sum"
  complexity_score := 0

/-- C8 witness: saving the same record three times leaves at most one row
keyed by its arXiv id. -/
theorem save_paper_to_database_idempotent_witness :
    (rowsWithKey (saveTimes c8Paper 3) "2401.00001v1").length ≤ 1 := by
  exact (save_paper_to_database_idempotent c8Paper "2401.00001v1" 3 (by rfl)).1

/-! ## C2: `ARC19.create_asset` (src/arc19.py lines 118-141)

The algod client is the environment: `send_transaction` and
`wait_for_confirmation` may each raise.  The function builds an
`AssetCreateTxn`, signs it with the account's private key, submits it, waits
for the confirmation, and only then returns the transaction id. -/

/-- Fields of `algosdk.transaction.AssetCreateTxn` that `create_asset` sets
(the `freeze` address is left unset by the source). -/
structure AssetCreateTxn where
  sender : String
  sp : String
  total : Nat
  decimals : Nat
  default_frozen : Bool
  asset_name : String
  unit_name : String
  manager : String
  clawback : String
  reserve : String
  url : String
  metadata_hash : List Nat
deriving DecidableEq, Repr

/-- A transaction signed with a private key (`txn.sign(private_key)`). -/
structure SignedAssetTxn where
  txn : AssetCreateTxn
  signingKey : String
deriving DecidableEq, Repr

/-- Account state of the `ARC19` object used by `create_asset`. -/
structure ARC19State where
  user_address : String
  private_key : String
  sp : String

/-- Environment for `create_asset`: the algod client operations, each of
which may raise. -/
structure AlgodEnv where
  send_transaction : SignedAssetTxn → Except String String
  wait_for_confirmation : String → Except String String

/-- The unsigned transaction built by `create_asset`. -/
def builtAssetTxn (st : ARC19State) (metadata_hash : List Nat)
    (reserve_address url : String) : AssetCreateTxn where
  sender := st.user_address
  sp := st.sp
  total := 1
  decimals := 0
  default_frozen := false
  asset_name := "ARC19"
  unit_name := "ARC19NFT"
  manager := st.user_address
  clawback := st.user_address
  reserve := reserve_address
  url := url
  metadata_hash := metadata_hash

/-- Embedding of `ARC19.create_asset`: build, sign, submit, wait for the
confirmation, and return the transaction id. -/
def create_asset (st : ARC19State) (env : AlgodEnv) (metadata_hash : List Nat)
    (reserve_address url : String) : Except String String :=
  match env.send_transaction
      ⟨builtAssetTxn st metadata_hash reserve_address url, st.private_key⟩ with
  | .error e => .error e
  | .ok tx_id =>
    match env.wait_for_confirmation tx_id with
    | .error e => .error e
    | .ok _ => .ok tx_id

/-- C2: `create_asset` builds an asset-creation transaction with `total = 1`
and `decimals = 0`, carrying the given reserve address, URL and metadata
hash, signs it with the account's private key, submits exactly that signed
transaction, and returns a transaction id only when the wait for its
confirmation has succeeded. -/
theorem create_asset_spec (st : ARC19State) (env : AlgodEnv)
    (metadata_hash : List Nat) (reserve_address url tx_id : String)
    (hok : create_asset st env metadata_hash reserve_address url = .ok tx_id) :
    (builtAssetTxn st metadata_hash reserve_address url).total = 1 ∧
    (builtAssetTxn st metadata_hash reserve_address url).decimals = 0 ∧
    (builtAssetTxn st metadata_hash reserve_address url).reserve = reserve_address ∧
    (builtAssetTxn st metadata_hash reserve_address url).url = url ∧
    (builtAssetTxn st metadata_hash reserve_address url).metadata_hash = metadata_hash ∧
    env.send_transaction
      ⟨builtAssetTxn st metadata_hash reserve_address url, st.private_key⟩ = .ok tx_id ∧
    ∃ c, env.wait_for_confirmation tx_id = .ok c := by
  unfold create_asset at hok
  split at hok
  next e hsend => cases hok
  next t hsend =>
    split at hok
    next e hwait => cases hok
    next c hwait =>
      injection hok with ht
      subst ht
      exact ⟨rfl, rfl, rfl, rfl, rfl, hsend, ⟨c, hwait⟩⟩

/-- Environment for the C2 witness: the node accepts the transaction under id
`"TX1"` and confirms it. -/
def c2Env : AlgodEnv where
  send_transaction := fun _ => .ok "TX1"
  wait_for_confirmation := fun _ => .ok "confirmed"

/-- C2 witness: the specification applied to a concrete successful run. -/
theorem create_asset_spec_witness :
    (builtAssetTxn ⟨"ADDR", "SK", "SP"⟩ [1, 2] "RESERVE" "u").total = 1 ∧
    c2Env.send_transaction
      ⟨builtAssetTxn ⟨"ADDR", "SK", "SP"⟩ [1, 2] "RESERVE" "u", "SK"⟩ = .ok "TX1" := by
  have h := create_asset_spec ⟨"ADDR", "SK", "SP"⟩ c2Env [1, 2] "RESERVE" "u" "TX1" (by rfl)
  exact ⟨h.1, h.2.2.2.2.2.1⟩

/-! ## Positional digit machinery

`ARC19.reserve_address_from_cid` delegates to `multiformats_cid`,
`multihash` and `algosdk.encoding`.  Those libraries are embedded below from
their documented byte-level behaviour: base58btc, unpadded RFC 4648 base32,
varints, and the SHA-512/256 address checksum.  Everything rests on
big-endian positional digits. -/

/-- Little-endian digits of `n` in the given base, `k` digits. -/
def digitsLE (base : Nat) : Nat → Nat → List Nat
  | 0, _ => []
  | k + 1, n => n % base :: digitsLE base k (n / base)

/-- Big-endian digits of `n` in the given base, `k` digits. -/
def digitsBE (base k n : Nat) : List Nat := (digitsLE base k n).reverse

/-- Value of a little-endian digit list. -/
def undigitsLE (base : Nat) : List Nat → Nat
  | [] => 0
  | d :: rest => d + base * undigitsLE base rest

/-- Value of a big-endian digit list. -/
def undigitsBE (base : Nat) (ds : List Nat) : Nat := undigitsLE base ds.reverse

theorem digitsLE_length (base k n : Nat) : (digitsLE base k n).length = k := by
  induction k generalizing n with
  | zero => rfl
  | succ m ih => simp [digitsLE, ih]

theorem digitsBE_length (base k n : Nat) : (digitsBE base k n).length = k := by
  simp [digitsBE, digitsLE_length]

theorem digitsLE_lt (base k n : Nat) (hb : 0 < base) :
    ∀ d ∈ digitsLE base k n, d < base := by
  induction k generalizing n with
  | zero => intro d hd; simp [digitsLE] at hd
  | succ m ih =>
    intro d hd
    simp only [digitsLE, List.mem_cons] at hd
    rcases hd with h | h
    · subst h; exact Nat.mod_lt _ hb
    · exact ih (n / base) d h

theorem digitsBE_lt (base k n : Nat) (hb : 0 < base) :
    ∀ d ∈ digitsBE base k n, d < base := by
  intro d hd
  exact digitsLE_lt base k n hb d (List.mem_reverse.mp hd)

theorem undigitsLE_digitsLE (base k n : Nat) (hn : n < base ^ k) :
    undigitsLE base (digitsLE base k n) = n := by
  induction k generalizing n with
  | zero =>
    have hn0 : n = 0 := by simpa using hn
    subst hn0; rfl
  | succ m ih =>
    have hb : 0 < base := by
      rcases Nat.eq_zero_or_pos base with h | h
      · subst h; simp at hn
      · exact h
    have hdiv : n / base < base ^ m := by
      rw [Nat.div_lt_iff_lt_mul hb]
      calc n < base ^ (m + 1) := hn
        _ = base ^ m * base := by ring
    simp only [digitsLE, undigitsLE, ih (n / base) hdiv]
    exact Nat.mod_add_div n base

theorem digitsLE_undigitsLE (base : Nat) (l : List Nat) (hb : 0 < base)
    (hl : ∀ d ∈ l, d < base) :
    digitsLE base l.length (undigitsLE base l) = l := by
  induction l with
  | nil => rfl
  | cons d rest ih =>
    have hd : d < base := hl d (List.mem_cons_self d rest)
    have hmod : (d + base * undigitsLE base rest) % base = d := by
      rw [Nat.add_mul_mod_self_left]
      exact Nat.mod_eq_of_lt hd
    have hdiv : (d + base * undigitsLE base rest) / base = undigitsLE base rest := by
      rw [Nat.add_mul_div_left _ _ hb]
      rw [Nat.div_eq_of_lt hd]
      omega
    simp only [List.length_cons, digitsLE, undigitsLE, hmod, hdiv]
    rw [ih (fun d hd => hl d (List.mem_cons_of_mem _ hd))]

theorem undigitsBE_digitsBE (base k n : Nat) (hn : n < base ^ k) :
    undigitsBE base (digitsBE base k n) = n := by
  simp only [undigitsBE, digitsBE, List.reverse_reverse]
  exact undigitsLE_digitsLE base k n hn

theorem digitsBE_undigitsBE (base : Nat) (l : List Nat) (hb : 0 < base)
    (hl : ∀ d ∈ l, d < base) :
    digitsBE base l.length (undigitsBE base l) = l := by
  simp only [digitsBE, undigitsBE]
  have h := digitsLE_undigitsLE base l.reverse hb
    (fun d hd => hl d (List.mem_reverse.mp hd))
  rw [List.length_reverse] at h
  rw [h, List.reverse_reverse]

theorem undigitsLE_lt (base : Nat) (l : List Nat) (hl : ∀ d ∈ l, d < base) :
    undigitsLE base l < base ^ l.length := by
  induction l with
  | nil => simp [undigitsLE]
  | cons d rest ih =>
    have hd : d < base := hl d (List.mem_cons_self d rest)
    have hr := ih (fun d hd => hl d (List.mem_cons_of_mem _ hd))
    have h2 : base * (undigitsLE base rest + 1) ≤ base * base ^ rest.length :=
      Nat.mul_le_mul_left base hr
    simp only [undigitsLE, List.length_cons]
    calc d + base * undigitsLE base rest
        < base + base * undigitsLE base rest := by omega
      _ = base * (undigitsLE base rest + 1) := by ring
      _ ≤ base * base ^ rest.length := h2
      _ = base ^ (rest.length + 1) := by rw [pow_succ]; ring

theorem undigitsBE_lt (base : Nat) (l : List Nat) (hl : ∀ d ∈ l, d < base) :
    undigitsBE base l < base ^ l.length := by
  have h := undigitsLE_lt base l.reverse (fun d hd => hl d (List.mem_reverse.mp hd))
  rw [List.length_reverse] at h
  exact h

/-! ## RFC 4648 base32 (as used by `base64.b32encode`/`b32decode` inside
`algosdk.encoding` and by multibase base32) -/

/-- Base32 encoding at the 5-bit digit level: full 5-byte groups become 8
digits; a final partial group of 1/2/3/4 bytes becomes 2/4/5/7 digits with
zero padding bits (`base64.b32encode` followed by stripping the `=` padding). -/
def b32chunksEnc : List Nat → List Nat
  | b1 :: b2 :: b3 :: b4 :: b5 :: rest =>
    digitsBE 32 8 (undigitsBE 256 [b1, b2, b3, b4, b5]) ++ b32chunksEnc rest
  | [] => []
  | [b1] => digitsBE 32 2 (b1 * 4)
  | [b1, b2] => digitsBE 32 4 (undigitsBE 256 [b1, b2] * 16)
  | [b1, b2, b3] => digitsBE 32 5 (undigitsBE 256 [b1, b2, b3] * 2)
  | [b1, b2, b3, b4] => digitsBE 32 7 (undigitsBE 256 [b1, b2, b3, b4] * 8)

/-- Base32 decoding at the 5-bit digit level, inverse of `b32chunksEnc`;
digit-list lengths that no padded base32 string produces (1, 3 or 6 mod 8)
yield `[]` and are rejected by the callers' length checks. -/
def b32chunksDec : List Nat → List Nat
  | d1 :: d2 :: d3 :: d4 :: d5 :: d6 :: d7 :: d8 :: rest =>
    digitsBE 256 5 (undigitsBE 32 [d1, d2, d3, d4, d5, d6, d7, d8]) ++ b32chunksDec rest
  | [] => []
  | [d1, d2] => [undigitsBE 32 [d1, d2] / 4]
  | [d1, d2, d3, d4] => digitsBE 256 2 (undigitsBE 32 [d1, d2, d3, d4] / 16)
  | [d1, d2, d3, d4, d5] => digitsBE 256 3 (undigitsBE 32 [d1, d2, d3, d4, d5] / 2)
  | [d1, d2, d3, d4, d5, d6, d7] =>
    digitsBE 256 4 (undigitsBE 32 [d1, d2, d3, d4, d5, d6, d7] / 8)
  | _ => []

/-- Decoding a digit stream that starts with eight digits processes exactly
those eight digits and recurses on the rest. -/
theorem b32chunksDec_append8 (l8 rest : List Nat) (h : l8.length = 8) :
    b32chunksDec (l8 ++ rest) =
      digitsBE 256 5 (undigitsBE 32 l8) ++ b32chunksDec rest := by
  match l8, h with
  | [d1, d2, d3, d4, d5, d6, d7, d8], _ => rfl

/-- Unfolding lemma for the main five-byte case of `b32chunksEnc`. -/
theorem b32chunksEnc_cons5 (b1 b2 b3 b4 b5 : Nat) (rest : List Nat) :
    b32chunksEnc (b1 :: b2 :: b3 :: b4 :: b5 :: rest) =
      digitsBE 32 8 (undigitsBE 256 [b1, b2, b3, b4, b5]) ++ b32chunksEnc rest := rfl

/-- The base32 digit/byte roundtrip: decoding an encoded byte stream returns
the original bytes, for bytes below 256. -/
theorem b32chunksDec_enc (bs : List Nat) (hb : ∀ b ∈ bs, b < 256) :
    b32chunksDec (b32chunksEnc bs) = bs := by
  induction bs using b32chunksEnc.induct with
  | case1 b1 b2 b3 b4 b5 rest ih =>
    have hball : ∀ b ∈ [b1, b2, b3, b4, b5], b < 256 := by
      intro b hbm
      apply hb
      simp only [List.mem_cons] at hbm ⊢
      tauto
    have hrest : ∀ b ∈ rest, b < 256 := by
      intro b hbm
      apply hb
      simp only [List.mem_cons]
      tauto
    have hN : undigitsBE 256 [b1, b2, b3, b4, b5] < 256 ^ 5 :=
      undigitsBE_lt 256 _ hball
    have hN32 : undigitsBE 256 [b1, b2, b3, b4, b5] < 32 ^ 8 := by
      have : (256 : Nat) ^ 5 = 32 ^ 8 := by norm_num
      omega
    rw [b32chunksEnc_cons5,
      b32chunksDec_append8 _ _ (digitsBE_length 32 8 _),
      undigitsBE_digitsBE 32 8 _ hN32]
    have h5 : digitsBE 256 5 (undigitsBE 256 [b1, b2, b3, b4, b5])
        = [b1, b2, b3, b4, b5] := by
      have := digitsBE_undigitsBE 256 [b1, b2, b3, b4, b5] (by norm_num) hball
      simpa using this
    rw [h5, ih hrest]
    rfl
  | case2 => rfl
  | case3 b1 =>
    have hb1 : b1 < 256 := hb b1 (by simp)
    have hlt : b1 * 4 < 32 ^ 2 := by omega
    have h2 : (digitsBE 32 2 (b1 * 4)).length = 2 := digitsBE_length 32 2 _
    rw [show b32chunksEnc [b1] = digitsBE 32 2 (b1 * 4) from rfl]
    match hds : digitsBE 32 2 (b1 * 4), h2 with
    | [d1, d2], _ =>
      have hun : undigitsBE 32 [d1, d2] = b1 * 4 := by
        rw [← hds]
        exact undigitsBE_digitsBE 32 2 _ hlt
      show [undigitsBE 32 [d1, d2] / 4] = [b1]
      rw [hun]
      simp [Nat.mul_div_cancel]
  | case4 b1 b2 =>
    have hball : ∀ b ∈ [b1, b2], b < 256 := by
      intro b hbm; apply hb; simpa using hbm
    have hN : undigitsBE 256 [b1, b2] < 256 ^ 2 := undigitsBE_lt 256 _ hball
    have hlt : undigitsBE 256 [b1, b2] * 16 < 32 ^ 4 := by
      have : (32 : Nat) ^ 4 = 256 ^ 2 * 16 := by norm_num
      omega
    have h4 : (digitsBE 32 4 (undigitsBE 256 [b1, b2] * 16)).length = 4 :=
      digitsBE_length 32 4 _
    rw [show b32chunksEnc [b1, b2] = digitsBE 32 4 (undigitsBE 256 [b1, b2] * 16)
      from rfl]
    match hds : digitsBE 32 4 (undigitsBE 256 [b1, b2] * 16), h4 with
    | [d1, d2, d3, d4], _ =>
      have hun : undigitsBE 32 [d1, d2, d3, d4] = undigitsBE 256 [b1, b2] * 16 := by
        rw [← hds]
        exact undigitsBE_digitsBE 32 4 _ hlt
      show digitsBE 256 2 (undigitsBE 32 [d1, d2, d3, d4] / 16) = [b1, b2]
      rw [hun, Nat.mul_div_cancel _ (by norm_num)]
      have := digitsBE_undigitsBE 256 [b1, b2] (by norm_num) hball
      simpa using this
  | case5 b1 b2 b3 =>
    have hball : ∀ b ∈ [b1, b2, b3], b < 256 := by
      intro b hbm; apply hb; simpa using hbm
    have hN : undigitsBE 256 [b1, b2, b3] < 256 ^ 3 := undigitsBE_lt 256 _ hball
    have hlt : undigitsBE 256 [b1, b2, b3] * 2 < 32 ^ 5 := by
      have : (32 : Nat) ^ 5 = 256 ^ 3 * 2 := by norm_num
      omega
    have h5 : (digitsBE 32 5 (undigitsBE 256 [b1, b2, b3] * 2)).length = 5 :=
      digitsBE_length 32 5 _
    rw [show b32chunksEnc [b1, b2, b3]
      = digitsBE 32 5 (undigitsBE 256 [b1, b2, b3] * 2) from rfl]
    match hds : digitsBE 32 5 (undigitsBE 256 [b1, b2, b3] * 2), h5 with
    | [d1, d2, d3, d4, d5], _ =>
      have hun : undigitsBE 32 [d1, d2, d3, d4, d5]
          = undigitsBE 256 [b1, b2, b3] * 2 := by
        rw [← hds]
        exact undigitsBE_digitsBE 32 5 _ hlt
      show digitsBE 256 3 (undigitsBE 32 [d1, d2, d3, d4, d5] / 2) = [b1, b2, b3]
      rw [hun, Nat.mul_div_cancel _ (by norm_num)]
      have := digitsBE_undigitsBE 256 [b1, b2, b3] (by norm_num) hball
      simpa using this
  | case6 b1 b2 b3 b4 =>
    have hball : ∀ b ∈ [b1, b2, b3, b4], b < 256 := by
      intro b hbm; apply hb; simpa using hbm
    have hN : undigitsBE 256 [b1, b2, b3, b4] < 256 ^ 4 := undigitsBE_lt 256 _ hball
    have hlt : undigitsBE 256 [b1, b2, b3, b4] * 8 < 32 ^ 7 := by
      have : (32 : Nat) ^ 7 = 256 ^ 4 * 8 := by norm_num
      omega
    have h7 : (digitsBE 32 7 (undigitsBE 256 [b1, b2, b3, b4] * 8)).length = 7 :=
      digitsBE_length 32 7 _
    rw [show b32chunksEnc [b1, b2, b3, b4]
      = digitsBE 32 7 (undigitsBE 256 [b1, b2, b3, b4] * 8) from rfl]
    match hds : digitsBE 32 7 (undigitsBE 256 [b1, b2, b3, b4] * 8), h7 with
    | [d1, d2, d3, d4, d5, d6, d7], _ =>
      have hun : undigitsBE 32 [d1, d2, d3, d4, d5, d6, d7]
          = undigitsBE 256 [b1, b2, b3, b4] * 8 := by
        rw [← hds]
        exact undigitsBE_digitsBE 32 7 _ hlt
      show digitsBE 256 4 (undigitsBE 32 [d1, d2, d3, d4, d5, d6, d7] / 8)
        = [b1, b2, b3, b4]
      rw [hun, Nat.mul_div_cancel _ (by norm_num)]
      have := digitsBE_undigitsBE 256 [b1, b2, b3, b4] (by norm_num) hball
      simpa using this

/-! ## SHA-512 and SHA-512/256 (the `algosdk.encoding` address checksum) -/

/-- Truncation to a 64-bit word. -/
def w64 (n : Nat) : Nat := n % 18446744073709551616

/-- Rotate a 64-bit word right by `k` bits. -/
def rotr64 (x k : Nat) : Nat := w64 ((x >>> k) ||| (x <<< (64 - k)))

/-- SHA-512 big sigma 0. -/
def bsig0 (x : Nat) : Nat := Nat.xor (Nat.xor (rotr64 x 28) (rotr64 x 34)) (rotr64 x 39)

/-- SHA-512 big sigma 1. -/
def bsig1 (x : Nat) : Nat := Nat.xor (Nat.xor (rotr64 x 14) (rotr64 x 18)) (rotr64 x 41)

/-- SHA-512 small sigma 0. -/
def ssig0 (x : Nat) : Nat := Nat.xor (Nat.xor (rotr64 x 1) (rotr64 x 8)) (x >>> 7)

/-- SHA-512 small sigma 1. -/
def ssig1 (x : Nat) : Nat := Nat.xor (Nat.xor (rotr64 x 19) (rotr64 x 61)) (x >>> 6)

/-- SHA-2 choice function. -/
def shaCh (x y z : Nat) : Nat :=
  Nat.xor (Nat.land x y) (Nat.land (Nat.xor x 18446744073709551615) z)

/-- SHA-2 majority function. -/
def shaMaj (x y z : Nat) : Nat :=
  Nat.xor (Nat.xor (Nat.land x y) (Nat.land x z)) (Nat.land y z)

/-- The eighty SHA-512 round constants (FIPS 180-4), written in decimal. -/
def shaK : List Nat :=
  [4794697086780616226, 8158064640168781261, 13096744586834688815,
   16840607885511220156, 4131703408338449720, 6480981068601479193,
   10538285296894168987, 12329834152419229976, 15566598209576043074,
   1334009975649890238, 2608012711638119052, 6128411473006802146,
   8268148722764581231, 9286055187155687089, 11230858885718282805,
   13951009754708518548, 16472876342353939154, 17275323862435702243,
   1135362057144423861, 2597628984639134821, 3308224258029322869,
   5365058923640841347, 6679025012923562964, 8573033837759648693,
   10970295158949994411, 12119686244451234320, 12683024718118986047,
   13788192230050041572, 14330467153632333762, 15395433587784984357,
   489312712824947311, 1452737877330783856, 2861767655752347644,
   3322285676063803686, 5560940570517711597, 5996557281743188959,
   7280758554555802590, 8532644243296465576, 9350256976987008742,
   10552545826968843579, 11727347734174303076, 12113106623233404929,
   14000437183269869457, 14369950271660146224, 15101387698204529176,
   15463397548674623760, 17586052441742319658, 1182934255886127544,
   1847814050463011016, 2177327727835720531, 2830643537854262169,
   3796741975233480872, 4115178125766777443, 5681478168544905931,
   6601373596472566643, 7507060721942968483, 8399075790359081724,
   8693463985226723168, 9568029438360202098, 10144078919501101548,
   10430055236837252648, 11840083180663258601, 13761210420658862357,
   14299343276471374635, 14566680578165727644, 15097957966210449927,
   16922976911328602910, 17689382322260857208, 500013540394364858,
   748580250866718886, 1242879168328830382, 1977374033974150939,
   2944078676154940804, 3659926193048069267, 4368137639120453308,
   4836135668995329356, 5532061633213252278, 6448918945643986474,
   6902733635092675308, 7801388544844847127]
/-- SHA-512 padding: append `0x80`, zeros, and the 128-bit big-endian bit
length so the total is a multiple of 128 bytes. -/
def sha512pad (msg : List Nat) : List Nat :=
  let l := msg.length
  let zeros := (128 + 112 - (l + 1) % 128) % 128
  msg ++ [0x80] ++ List.replicate zeros 0 ++ digitsBE 256 16 (8 * l)

/-- Split a list into chunks of `n` (fuelled by the list length). -/
def chunksOf (n : Nat) : Nat → List Nat → List (List Nat)
  | _, [] => []
  | 0, l => [l]
  | fuel + 1, l => l.take n :: chunksOf n fuel (l.drop n)

/-- Message schedule: starting from the reversed first sixteen words, prepend
the next word `steps` times; the result is the reversed schedule. -/
def shaScheduleRev : Nat → List Nat → List Nat
  | 0, acc => acc
  | t + 1, acc =>
    shaScheduleRev t
      (w64 (ssig1 (acc.getD 1 0) + acc.getD 6 0 + ssig0 (acc.getD 14 0) + acc.getD 15 0)
        :: acc)

/-- One SHA-512 compression step over the state `[a, b, c, d, e, f, g, h]`. -/
def shaStep (s : List Nat) (kw : Nat × Nat) : List Nat :=
  match s with
  | [a, b, c, d, e, f, g, h] =>
    let t1 := w64 (h + bsig1 e + shaCh e f g + kw.1 + kw.2)
    let t2 := w64 (bsig0 a + shaMaj a b c)
    [w64 (t1 + t2), a, b, c, w64 (d + t1), e, f, g]
  | s => s

/-- SHA-512 compression of one 128-byte block into the chaining state. -/
def sha512compress (h : List Nat) (block : List Nat) : List Nat :=
  let ws0 := (chunksOf 8 block.length block).map (undigitsBE 256)
  let ws := (shaScheduleRev 64 ws0.reverse).reverse
  let s := (shaK.zip ws).foldl shaStep h
  List.zipWith (fun x y => w64 (x + y)) h s

/-- SHA-512 core: pad, split into blocks, compress. -/
def sha512core (iv : List Nat) (msg : List Nat) : List Nat :=
  (chunksOf 128 (sha512pad msg).length (sha512pad msg)).foldl sha512compress iv

/-- SHA-512 initial state, written in decimal. -/
def iv512 : List Nat :=
  [7640891576956012808, 13503953896175478587, 4354685564936845355,
   11912009170470909681, 5840696475078001361, 11170449401992604703,
   2270897969802886507, 6620516959819538809]
/-- SHA-512/256 initial state (FIPS 180-4), written in decimal. -/
def iv512_256 : List Nat :=
  [2463787394917988140, 11481187982095705282, 2563595384472711505,
   10824532655140301501, 10819967247969091555, 13717434660681038226,
   3098927326965381290, 1060366662362279074]
/-- SHA-512 digest (64 bytes). -/
def sha512 (msg : List Nat) : List Nat :=
  ((sha512core iv512 msg).map (digitsBE 256 8)).flatten

/-- SHA-512/256 digest (32 bytes), the hash used by the Algorand address
checksum. -/
def sha512_256 (msg : List Nat) : List Nat :=
  (((sha512core iv512_256 msg).take 4).map (digitsBE 256 8)).flatten

/-- FIPS 180-4 test vector: SHA-512 of `"abc"`. -/
theorem sha512_abc :
    sha512 [0x61, 0x62, 0x63] =
      [0xdd, 0xaf, 0x35, 0xa1, 0x93, 0x61, 0x7a, 0xba, 0xcc, 0x41, 0x73, 0x49,
       0xae, 0x20, 0x41, 0x31, 0x12, 0xe6, 0xfa, 0x4e, 0x89, 0xa9, 0x7e, 0xa2,
       0x0a, 0x9e, 0xee, 0xe6, 0x4b, 0x55, 0xd3, 0x9a, 0x21, 0x92, 0x99, 0x2a,
       0x27, 0x4f, 0xc1, 0xa8, 0x36, 0xba, 0x3c, 0x23, 0xa3, 0xfe, 0xeb, 0xbd,
       0x45, 0x4d, 0x44, 0x23, 0x64, 0x3c, 0xe8, 0x0e, 0x2a, 0x9a, 0xc9, 0x4f,
       0xa5, 0x4c, 0xa4, 0x9f] := by decide

/-- NIST example: SHA-512/256 of `"abc"`. -/
theorem sha512_256_abc :
    sha512_256 [0x61, 0x62, 0x63] =
      [0x53, 0x04, 0x8e, 0x26, 0x81, 0x94, 0x1e, 0xf9, 0x9b, 0x2e, 0x29, 0xb7,
       0x6b, 0x4c, 0x7d, 0xab, 0xe4, 0xc2, 0xd0, 0xc6, 0x34, 0xfc, 0x6d, 0x46,
       0xe0, 0xe2, 0xf1, 0x31, 0x07, 0xe7, 0xaf, 0x23] := by decide

/-! ## Character tables and the Algorand address codec -/

/-- RFC 4648 base32 alphabet (uppercase, used by `base64.b32encode`). -/
def b32Alphabet : List Char := "ABCDEFGHIJKLMNOPQRSTUVWXYZ234567".data

/-- RFC 4648 base32 alphabet, lowercase (multibase `base32`). -/
def b32LowerAlphabet : List Char := "abcdefghijklmnopqrstuvwxyz234567".data

/-- Index of a character in a list, used to invert the alphabets. -/
def charIndexAux (c : Char) : List Char → Nat → Option Nat
  | [], _ => none
  | a :: rest, i => if a = c then some i else charIndexAux c rest (i + 1)

def b32CharOfDigit (d : Nat) : Char := b32Alphabet.getD d '?'

def b32DigitOfChar (c : Char) : Option Nat := charIndexAux c b32Alphabet 0

def b32LowerDigitOfChar (c : Char) : Option Nat := charIndexAux c b32LowerAlphabet 0

theorem b32DigitOfChar_b32CharOfDigit : ∀ d < 32, b32DigitOfChar (b32CharOfDigit d) = some d := by
  decide

/-- Results of `charIndexAux` over a list are below `start + length`. -/
theorem charIndexAux_lt (c : Char) (l : List Char) (i v : Nat)
    (h : charIndexAux c l i = some v) : v < i + l.length := by
  induction l generalizing i with
  | nil => simp [charIndexAux] at h
  | cons a rest ih =>
    simp only [charIndexAux] at h
    by_cases ha : a = c
    · rw [if_pos ha] at h
      injection h with h
      subst h
      simp only [List.length_cons]
      omega
    · rw [if_neg ha] at h
      have := ih (i + 1) h
      simp only [List.length_cons]
      omega

/-- The checksum of `algosdk.encoding`: the last four bytes of the
SHA-512/256 digest. -/
def address_checksum (d : List Nat) : List Nat := (sha512_256 d).drop 28

/-- Embedding of `algosdk.encoding.encode_address`: requires a 32-byte
digest (else the library raises), appends the four checksum bytes and
base32-encodes without padding. -/
def encode_address (digest : List Nat) : Option String :=
  if digest.length = 32 then
    some (String.mk ((b32chunksEnc (digest ++ address_checksum digest)).map b32CharOfDigit))
  else none

/-- Embedding of `algosdk.encoding.decode_address`: requires 58 characters,
base32-decodes, splits off the last four bytes and verifies them as the
checksum of the rest; every failure models the library raising. -/
def decode_address (addr : String) : Option (List Nat) :=
  if addr.data.length = 58 then
    match addr.data.mapM b32DigitOfChar with
    | none => none
    | some ds =>
      let bytes := b32chunksDec ds
      if bytes.drop (bytes.length - 4) = address_checksum (bytes.take (bytes.length - 4))
      then some (bytes.take (bytes.length - 4))
      else none
  else none

/-- Embedding of `algosdk.encoding.is_valid_address`. -/
def is_valid_address (addr : String) : Bool := (decode_address addr).isSome

/-- Length of the flattened big-endian byte expansion of a word list. -/
theorem flatten_digitsBE_length (ws : List Nat) :
    ((ws.map (digitsBE 256 8)).flatten).length = 8 * ws.length := by
  induction ws with
  | nil => rfl
  | cons w rest ih =>
    simp only [List.map_cons, List.flatten_cons, List.length_append, ih,
      digitsBE_length, List.length_cons]
    ring

/-- `shaStep` preserves the state length. -/
theorem shaStep_length (s : List Nat) (kw : Nat × Nat) :
    (shaStep s kw).length = s.length := by
  unfold shaStep
  split
  · simp
  · rfl

/-- Folding `shaStep` preserves the state length. -/
theorem foldl_shaStep_length (l : List (Nat × Nat)) (s : List Nat) :
    (l.foldl shaStep s).length = s.length := by
  induction l generalizing s with
  | nil => rfl
  | cons kw rest ih => rw [List.foldl_cons, ih, shaStep_length]

/-- `sha512compress` preserves the state length. -/
theorem sha512compress_length (h block : List Nat) :
    (sha512compress h block).length = h.length := by
  unfold sha512compress
  rw [List.length_zipWith, foldl_shaStep_length]
  omega

/-- The SHA-512 core state keeps its eight words. -/
theorem sha512core_length (iv : List Nat) (msg : List Nat) :
    (sha512core iv msg).length = iv.length := by
  unfold sha512core
  generalize chunksOf 128 (sha512pad msg).length (sha512pad msg) = blocks
  induction blocks generalizing iv with
  | nil => rfl
  | cons b rest ih => rw [List.foldl_cons, ih, sha512compress_length]

/-- A SHA-512/256 digest has 32 bytes. -/
theorem sha512_256_length (msg : List Nat) : (sha512_256 msg).length = 32 := by
  unfold sha512_256
  rw [flatten_digitsBE_length, List.length_take, sha512core_length]
  rfl

/-- Every byte of a SHA-512/256 digest is below 256. -/
theorem sha512_256_lt (msg : List Nat) : ∀ b ∈ sha512_256 msg, b < 256 := by
  intro b hb
  unfold sha512_256 at hb
  rw [List.mem_flatten] at hb
  obtain ⟨l, hl, hbl⟩ := hb
  rw [List.mem_map] at hl
  obtain ⟨w, _, hw⟩ := hl
  subst hw
  exact digitsBE_lt 256 8 w (by norm_num) b hbl

/-- The address checksum has four bytes, all below 256. -/
theorem address_checksum_spec (d : List Nat) :
    (address_checksum d).length = 4 ∧ ∀ b ∈ address_checksum d, b < 256 := by
  constructor
  · unfold address_checksum
    rw [List.length_drop, sha512_256_length]
  · intro b hb
    exact sha512_256_lt d b (List.mem_of_mem_drop hb)

/-- Length of the unpadded base32 digit expansion. -/
theorem b32chunksEnc_length (bs : List Nat) :
    (b32chunksEnc bs).length = (bs.length * 8 + 4) / 5 := by
  induction bs using b32chunksEnc.induct with
  | case1 b1 b2 b3 b4 b5 rest ih =>
    rw [b32chunksEnc_cons5, List.length_append, digitsBE_length, ih]
    simp only [List.length_cons]
    omega
  | case2 => rfl
  | case3 b1 => simp [b32chunksEnc, digitsBE_length]
  | case4 b1 b2 => simp [b32chunksEnc, digitsBE_length]
  | case5 b1 b2 b3 => simp [b32chunksEnc, digitsBE_length]
  | case6 b1 b2 b3 b4 => simp [b32chunksEnc, digitsBE_length]

/-- Every digit produced by `b32chunksEnc` is below 32. -/
theorem b32chunksEnc_lt (bs : List Nat) : ∀ d ∈ b32chunksEnc bs, d < 32 := by
  induction bs using b32chunksEnc.induct with
  | case1 b1 b2 b3 b4 b5 rest ih =>
    intro d hd
    rw [b32chunksEnc_cons5, List.mem_append] at hd
    rcases hd with h | h
    · exact digitsBE_lt 32 8 _ (by norm_num) d h
    · exact ih d h
  | case2 => intro d hd; simp [b32chunksEnc] at hd
  | case3 b1 =>
    intro d hd
    exact digitsBE_lt 32 2 _ (by norm_num) d hd
  | case4 b1 b2 =>
    intro d hd
    exact digitsBE_lt 32 4 _ (by norm_num) d hd
  | case5 b1 b2 b3 =>
    intro d hd
    exact digitsBE_lt 32 5 _ (by norm_num) d hd
  | case6 b1 b2 b3 b4 =>
    intro d hd
    exact digitsBE_lt 32 7 _ (by norm_num) d hd

/-- Mapping digits to alphabet characters and back is the identity on
digit lists below 32. -/
theorem mapM_b32DigitOfChar (ds : List Nat) (h : ∀ d ∈ ds, d < 32) :
    (ds.map b32CharOfDigit).mapM b32DigitOfChar = some ds := by
  induction ds with
  | nil => rfl
  | cons d rest ih =>
    have hd : d < 32 := h d (List.mem_cons_self d rest)
    rw [List.map_cons, List.mapM_cons, b32DigitOfChar_b32CharOfDigit d hd,
      ih (fun x hx => h x (List.mem_cons_of_mem _ hx))]
    rfl

/-- Decoding an encoded address recovers the digest: the reserve address
string determines the 32 digest bytes it was built from. -/
theorem decode_encode_address (digest : List Nat) (h32 : digest.length = 32)
    (hbytes : ∀ b ∈ digest, b < 256) :
    decode_address
      (String.mk ((b32chunksEnc (digest ++ address_checksum digest)).map b32CharOfDigit))
      = some digest := by
  obtain ⟨hcklen, hcklt⟩ := address_checksum_spec digest
  have hall : ∀ b ∈ digest ++ address_checksum digest, b < 256 := by
    intro b hb
    rcases List.mem_append.mp hb with h | h
    · exact hbytes b h
    · exact hcklt b h
  have hlen36 : (digest ++ address_checksum digest).length = 36 := by
    rw [List.length_append, h32, hcklen]
  have hdigits := b32chunksEnc_lt (digest ++ address_checksum digest)
  have hstrlen :
      ((b32chunksEnc (digest ++ address_checksum digest)).map b32CharOfDigit).length = 58 := by
    rw [List.length_map, b32chunksEnc_length, hlen36]
  unfold decode_address
  rw [show (String.mk ((b32chunksEnc (digest ++ address_checksum digest)).map
      b32CharOfDigit)).data
    = (b32chunksEnc (digest ++ address_checksum digest)).map b32CharOfDigit from rfl]
  rw [if_pos hstrlen, mapM_b32DigitOfChar _ hdigits]
  have htake : (digest ++ address_checksum digest).take (36 - 4) = digest := by
    rw [show (36 : Nat) - 4 = 32 from rfl, ← h32]
    exact List.take_left digest _
  have hdrop : (digest ++ address_checksum digest).drop (36 - 4) = address_checksum digest := by
    rw [show (36 : Nat) - 4 = 32 from rfl, ← h32]
    exact List.drop_left digest _
  show (if (b32chunksDec (b32chunksEnc (digest ++ address_checksum digest))).drop
        ((b32chunksDec (b32chunksEnc (digest ++ address_checksum digest))).length - 4)
      = address_checksum
        ((b32chunksDec (b32chunksEnc (digest ++ address_checksum digest))).take
          ((b32chunksDec (b32chunksEnc (digest ++ address_checksum digest))).length - 4))
    then some ((b32chunksDec (b32chunksEnc (digest ++ address_checksum digest))).take
        ((b32chunksDec (b32chunksEnc (digest ++ address_checksum digest))).length - 4))
    else none) = some digest
  rw [b32chunksDec_enc _ hall, hlen36, htake, hdrop, if_pos rfl]

/-! ## Varints, base58btc, multihash and CID decoding

Embeddings of the byte-level behaviour of the `multihash` and
`multiformats_cid` libraries that `ARC19` delegates to: unsigned LEB128
varints, base58btc (CIDv0 strings `Qm...`), multibase base32 (CIDv1 strings
`b...`), the multihash container, and the code tables for the codec and hash
names the sources can meet. -/

/-- Unsigned LEB128 varint: returns the value and the remaining bytes. -/
def decodeVarint : List Nat → Option (Nat × List Nat)
  | [] => none
  | b :: rest =>
    if b < 128 then some (b, rest)
    else
      match decodeVarint rest with
      | some (v, rest2) => some ((b - 128) + 128 * v, rest2)
      | none => none

/-- The remainder returned by `decodeVarint` is drawn from the input. -/
theorem decodeVarint_mem (bs : List Nat) (v : Nat) (rest : List Nat)
    (h : decodeVarint bs = some (v, rest)) : ∀ b ∈ rest, b ∈ bs := by
  induction bs generalizing v rest with
  | nil => simp [decodeVarint] at h
  | cons b0 bs' ih =>
    intro b hb
    simp only [decodeVarint] at h
    by_cases hlt : b0 < 128
    · rw [if_pos hlt] at h
      injection h with h
      injection h with h1 h2
      subst h2
      exact List.mem_cons_of_mem _ hb
    · rw [if_neg hlt] at h
      cases hrec : decodeVarint bs' with
      | none => rw [hrec] at h; cases h
      | some p =>
        rw [hrec] at h
        injection h with h
        injection h with h1 h2
        subst h2
        exact List.mem_cons_of_mem _ (ih p.1 p.2 (by rw [hrec]) b hb)

/-- The base58btc alphabet. -/
def b58Alphabet : List Char :=
  "123456789ABCDEFGHJKLMNPQRSTUVWXYZabcdefghijkmnopqrstuvwxyz".data

/-- Accumulating base58 value of a character list. -/
def b58decAux : List Char → Nat → Option Nat
  | [], acc => some acc
  | c :: rest, acc =>
    match charIndexAux c b58Alphabet 0 with
    | none => none
    | some v => b58decAux rest (58 * acc + v)

/-- Base58btc decoding: leading `'1'` characters become leading zero bytes,
the rest is the big-endian expansion of the accumulated value. -/
def b58decode (s : String) : Option (List Nat) :=
  match b58decAux s.data 0 with
  | none => none
  | some v =>
    some (List.replicate (s.data.takeWhile (fun c => c = '1')).length 0
      ++ (digitsBE 256 s.data.length v).dropWhile (fun b => b = 0))

/-- Bytes produced by `b58decode` are below 256. -/
theorem b58decode_lt (s : String) (bytes : List Nat)
    (h : b58decode s = some bytes) : ∀ b ∈ bytes, b < 256 := by
  unfold b58decode at h
  cases hv : b58decAux s.data 0 with
  | none => rw [hv] at h; cases h
  | some v =>
    rw [hv] at h
    injection h with h
    subst h
    intro b hb
    rcases List.mem_append.mp hb with hrep | hdig
    · rw [List.eq_of_mem_replicate hrep]; norm_num
    · exact digitsBE_lt 256 s.data.length v (by norm_num) b
        ((List.dropWhile_sublist _).subset hdig)

/-- Bytes produced by `b32chunksDec` from 5-bit digits are below 256. -/
theorem b32chunksDec_lt (ds : List Nat) (h : ∀ d ∈ ds, d < 32) :
    ∀ b ∈ b32chunksDec ds, b < 256 := by
  induction ds using b32chunksDec.induct with
  | case1 d1 d2 d3 d4 d5 d6 d7 d8 rest ih =>
    intro b hb
    rcases List.mem_append.mp hb with h1 | h2
    · exact digitsBE_lt 256 5 _ (by norm_num) b h1
    · refine ih (fun d hd => h d ?_) b h2
      simp only [List.mem_cons]
      tauto
  | case2 => intro b hb; simp [b32chunksDec] at hb
  | case3 d1 d2 =>
    intro b hb
    have h1 : d1 < 32 := h d1 (by simp)
    have h2 : d2 < 32 := h d2 (by simp)
    have : undigitsBE 32 [d1, d2] < 32 ^ 2 :=
      undigitsBE_lt 32 _ (by intro d hd; simp at hd; rcases hd with h' | h' <;> omega)
    simp only [b32chunksDec, List.mem_singleton] at hb
    subst hb
    omega
  | case4 d1 d2 d3 d4 =>
    intro b hb
    exact digitsBE_lt 256 2 _ (by norm_num) b hb
  | case5 d1 d2 d3 d4 d5 =>
    intro b hb
    exact digitsBE_lt 256 3 _ (by norm_num) b hb
  | case6 d1 d2 d3 d4 d5 d6 d7 =>
    intro b hb
    exact digitsBE_lt 256 4 _ (by norm_num) b hb
  | case7 l h1 h2 h3 h4 h5 h6 =>
    intro b hb
    simp [b32chunksDec] at hb

/-- Every element produced by an `Option`-valued `mapM` is an output of the
mapped function on some input element. -/
theorem mapM_mem_out {α β : Type} (f : α → Option β) (l : List α) (out : List β)
    (h : l.mapM f = some out) : ∀ b ∈ out, ∃ a ∈ l, f a = some b := by
  induction l generalizing out with
  | nil =>
    simp only [List.mapM_nil, Option.pure_def, Option.some.injEq] at h
    subst h
    intro b hb
    simp at hb
  | cons a rest ih =>
    rw [List.mapM_cons] at h
    cases hfa : f a with
    | none => rw [hfa] at h; simp at h
    | some v =>
      rw [hfa] at h
      cases hrest : rest.mapM f with
      | none => rw [hrest] at h; simp at h
      | some vs =>
        rw [hrest] at h
        simp only [Option.pure_def, Option.bind_some, Option.bind_eq_bind,
          Option.some_bind, Option.some.injEq] at h
        subst h
        intro b hb
        rcases List.mem_cons.mp hb with hb1 | hb2
        · exact ⟨a, List.mem_cons_self _ _, by rw [hfa, hb1]⟩
        · obtain ⟨a', ha', hfa'⟩ := ih vs hrest b hb2
          exact ⟨a', List.mem_cons_of_mem _ ha', hfa'⟩

/-- Digits produced by the lowercase base32 alphabet lookup are below 32. -/
theorem b32LowerDigitOfChar_lt (c : Char) (v : Nat)
    (h : b32LowerDigitOfChar c = some v) : v < 32 := by
  have := charIndexAux_lt c b32LowerAlphabet 0 v h
  simpa using this

/-- The multihash container: hash-function code, digest length, digest. -/
structure MultihashDecoded where
  code : Nat
  mlen : Nat
  digest : List Nat
deriving DecidableEq, Repr

/-- Embedding of `multihash.decode`: parse the code and length varints and
check the declared length against the remaining digest. -/
def multihashDecode (bs : List Nat) : Option MultihashDecoded :=
  match decodeVarint bs with
  | none => none
  | some (code, r1) =>
    match decodeVarint r1 with
    | none => none
    | some (len, r2) => if r2.length = len then some ⟨code, len, r2⟩ else none

/-- Lookup in a code table. -/
def lookupTable (t : List (Nat × String)) (code : Nat) : Option String :=
  match t.find? (fun e => e.1 = code) with
  | some e => some e.2
  | none => none

/-- Multihash function names (the `multihash` library's table, restricted to
the SHA family codes reachable from IPFS CIDs). -/
def mhNameTable : List (Nat × String) :=
  [(0x11, "sha1"), (0x12, "sha2-256"), (0x13, "sha2-512"), (0x14, "sha3-512"),
   (0x15, "sha3-384"), (0x16, "sha3-256"), (0x17, "sha3-224"),
   (0x56, "dbl-sha2-256")]

/-- Multicodec content-type names (the `multicodec` table, restricted to the
IPLD codecs CIDs carry in practice). -/
def codecTable : List (Nat × String) :=
  [(0x55, "raw"), (0x70, "dag-pb"), (0x71, "dag-cbor"), (0x72, "libp2p-key")]

/-- The digest bytes are drawn from the multihash bytes. -/
theorem multihashDecode_digest_mem (bs : List Nat) (mh : MultihashDecoded)
    (h : multihashDecode bs = some mh) : ∀ b ∈ mh.digest, b ∈ bs := by
  unfold multihashDecode at h
  split at h
  · cases h
  next code r1 h1 =>
    split at h
    · cases h
    next len r2 h2 =>
      split at h
      next hl =>
        injection h with h
        subst h
        intro b hb
        exact decodeVarint_mem bs code r1 h1 b (decodeVarint_mem r1 len r2 h2 b hb)
      next hl => cases h

/-- A decoded CID: version, codec name, multihash bytes. -/
structure CIDDecoded where
  version : Nat
  codec : String
  multihash : List Nat
deriving DecidableEq, Repr

/-- CIDv1 branch of `make_cid` on a multibase `base32` string body: decode
the base32 payload, then parse the version varint (which must be 1), the
codec varint (which must name a known codec), and keep the remaining bytes
as the multihash. -/
def cidDecodeV1 (rest : List Char) : Option CIDDecoded :=
  match rest.mapM b32LowerDigitOfChar with
  | none => none
  | some ds =>
    if ds.length % 8 = 1 || ds.length % 8 = 3 || ds.length % 8 = 6 then none
    else
      match decodeVarint (b32chunksDec ds) with
      | some (ver, r1) =>
        if ver = 1 then
          match decodeVarint r1 with
          | some (code, r2) =>
            match lookupTable codecTable code with
            | some name => some ⟨1, name, r2⟩
            | none => none
          | none => none
        else none
      | none => none

/-- Embedding of `multiformats_cid.make_cid` on strings: a 46-character
string starting `Qm` is a CIDv0 (base58btc multihash, codec `dag-pb`); a
string with multibase one-letter code `b` is base32-decoded and parsed as a
CIDv1.  Every library exception is `none`. -/
def cidDecode (s : String) : Option CIDDecoded :=
  if s.data.length = 46 && startsWithList ['Q', 'm'] s.data then
    match b58decode s with
    | some bytes => some ⟨0, "dag-pb", bytes⟩
    | none => none
  else
    match s.data with
    | 'b' :: rest => cidDecodeV1 rest
    | _ => none

/-- The multihash bytes of a CID decoded from the v1 branch are below 256. -/
theorem cidDecodeV1_multihash_lt (rest : List Char) (c : CIDDecoded)
    (h : cidDecodeV1 rest = some c) : ∀ b ∈ c.multihash, b < 256 := by
  unfold cidDecodeV1 at h
  split at h
  · cases h
  next ds hmapm =>
    split at h
    · cases h
    · have hds : ∀ d ∈ ds, d < 32 := by
        intro d hd
        obtain ⟨ch, _, hch⟩ := mapM_mem_out b32LowerDigitOfChar rest ds hmapm d hd
        exact b32LowerDigitOfChar_lt ch d hch
      have hdec := b32chunksDec_lt ds hds
      split at h
      next ver r1 hvar =>
        split at h
        · split at h
          next code r2 hvar2 =>
            split at h
            next name hname =>
              injection h with h
              subst h
              intro b hb
              refine hdec b ?_
              exact decodeVarint_mem _ ver r1 hvar b
                (decodeVarint_mem _ code r2 hvar2 b hb)
            next => cases h
          next => cases h
        · cases h
      next => cases h

/-- The multihash bytes of any decoded CID are below 256. -/
theorem cidDecode_multihash_lt (s : String) (c : CIDDecoded)
    (h : cidDecode s = some c) : ∀ b ∈ c.multihash, b < 256 := by
  unfold cidDecode at h
  split at h
  · split at h
    next bytes hb58 =>
      injection h with h
      subst h
      exact b58decode_lt s bytes hb58
    next => cases h
  · split at h
    next rest heq => exact cidDecodeV1_multihash_lt rest c h
    next => cases h

/-! ## C1: `ARC19.reserve_address_from_cid` (src/arc19.py lines 68-72) -/

/-- Embedding of `ARC19.reserve_address_from_cid`: decode the CID, decode its
multihash, encode the digest as an Algorand address, assert validity, return
it.  `none` models any of the library calls raising. -/
def reserve_address_from_cid (cid : String) : Option String :=
  match cidDecode cid with
  | none => none
  | some c =>
    match multihashDecode c.multihash with
    | none => none
    | some mh =>
      match encode_address mh.digest with
      | none => none
      | some addr => if is_valid_address addr then some addr else none

/-- The reserve address string built from a digest. -/
def reserveAddrOf (digest : List Nat) : String :=
  String.mk ((b32chunksEnc (digest ++ address_checksum digest)).map b32CharOfDigit)

/-- C1 (amended): for every CID string accepted by the decoder whose
multihash digest is 32 bytes, `reserve_address_from_cid` is deterministic (it
is a pure function of the CID string), succeeds, equals the address obtained
by encoding the digest with `encode_address`, passes the `is_valid_address`
assertion, and that address encodes the digest: decoding the address
recovers exactly the CID's multihash digest. -/
theorem reserve_address_from_cid_spec (cid : String) (c : CIDDecoded)
    (mh : MultihashDecoded)
    (hcid : cidDecode cid = some c)
    (hmh : multihashDecode c.multihash = some mh)
    (h32 : mh.digest.length = 32) :
    reserve_address_from_cid cid = some (reserveAddrOf mh.digest) ∧
    encode_address mh.digest = some (reserveAddrOf mh.digest) ∧
    is_valid_address (reserveAddrOf mh.digest) = true ∧
    decode_address (reserveAddrOf mh.digest) = some mh.digest ∧
    reserve_address_from_cid cid = reserve_address_from_cid cid := by
  have hlt : ∀ b ∈ mh.digest, b < 256 := fun b hb =>
    cidDecode_multihash_lt cid c hcid b (multihashDecode_digest_mem _ _ hmh b hb)
  have hdec : decode_address (reserveAddrOf mh.digest) = some mh.digest :=
    decode_encode_address mh.digest h32 hlt
  have henc : encode_address mh.digest = some (reserveAddrOf mh.digest) := by
    unfold encode_address reserveAddrOf
    rw [if_pos h32]
  have hvalid : is_valid_address (reserveAddrOf mh.digest) = true := by
    unfold is_valid_address
    rw [hdec]
    rfl
  refine ⟨?_, henc, hvalid, hdec, rfl⟩
  unfold reserve_address_from_cid
  simp only [hcid, hmh, henc]
  rw [if_pos hvalid]

def b32LowerCharOfDigit (d : Nat) : Char := b32LowerAlphabet.getD d '?'

/-- A 20-byte digest for the C1 counterexample. -/
def c1CtrDigest : List Nat := List.replicate 20 7

/-- A CIDv1 string carrying a `sha1` multihash (20-byte digest), built as the
multibase base32 encoding of `01 55 11 14` followed by the digest.  The CID
decoder accepts it, but its digest is not 32 bytes. -/
def c1CtrCid : String :=
  String.mk ('b' :: (b32chunksEnc ([0x01, 0x55, 0x11, 0x14] ++ c1CtrDigest)).map
    b32LowerCharOfDigit)

/-- C1 (counterexample): the claim quantifies over every CID accepted by the
decoder, but on a CID whose multihash is `sha1` (20-byte digest) the decoder
succeeds while `reserve_address_from_cid` produces no address:
`algosdk.encoding.encode_address` raises on a digest that is not 32 bytes
(modelled by `none`). -/
theorem reserve_address_from_cid_counterexample :
    cidDecode c1CtrCid = some ⟨1, "raw", 0x11 :: 0x14 :: c1CtrDigest⟩ ∧
    multihashDecode (0x11 :: 0x14 :: c1CtrDigest) = some ⟨0x11, 20, c1CtrDigest⟩ ∧
    (0x11 :: 0x14 :: c1CtrDigest).length ≠ 32 ∧
    reserve_address_from_cid c1CtrCid = none := by
  refine ⟨by rfl, by rfl, by decide, by rfl⟩

/-- A 32-byte digest (bytes 0..31) for the C1 witness. -/
def c1WitDigest : List Nat := List.range 32

/-- A CIDv1 string carrying a `sha2-256` multihash whose digest is
`c1WitDigest`, in multibase base32. -/
def c1WitCid : String :=
  String.mk ('b' :: (b32chunksEnc ([0x01, 0x70, 0x12, 0x20] ++ c1WitDigest)).map
    b32LowerCharOfDigit)

/-- C1 witness: the amended theorem applied to a concrete sha2-256 CID. -/
theorem reserve_address_from_cid_spec_witness :
    reserve_address_from_cid c1WitCid = some (reserveAddrOf c1WitDigest) ∧
    decode_address (reserveAddrOf c1WitDigest) = some c1WitDigest := by
  have h := reserve_address_from_cid_spec c1WitCid
    ⟨1, "dag-pb", 0x12 :: 0x20 :: c1WitDigest⟩ ⟨0x12, 32, c1WitDigest⟩
    (by rfl) (by rfl) (by rfl)
  exact ⟨h.1, h.2.2.2.1⟩

/-! ## C9: `ARC19.create_url_from_cid` (src/arc19.py lines 74-96) -/

/-- Embedding of `ARC19.version_from_cid`. -/
def version_from_cid (cid : String) : Option Nat :=
  match cidDecode cid with
  | none => none
  | some c => some c.version

/-- Embedding of `ARC19.codec_from_cid`. -/
def codec_from_cid (cid : String) : Option String :=
  match cidDecode cid with
  | none => none
  | some c => some c.codec

/-- Embedding of `ARC19.hash_from_cid`: the multihash function name of the
CID's multihash. -/
def hash_from_cid (cid : String) : Option String :=
  match cidDecode cid with
  | none => none
  | some c =>
    match multihashDecode c.multihash with
    | none => none
    | some mh => lookupTable mhNameTable mh.code

/-- Decimal rendering of a natural number (Python `f"{version}"`). -/
def natToString (n : Nat) : String :=
  if n = 0 then "0"
  else String.mk (((digitsBE 10 n n).dropWhile (fun d => d = 0)).map
    (fun d => Char.ofNat (48 + d)))

/-- The ARC-19 template URL built by `create_url_from_cid`. -/
def arc19Url (version : Nat) (codec hashName : String) : String :=
  "template-ipfs://\x7bipfscid:" ++ natToString version ++ ":" ++ codec
    ++ ":reserve:" ++ hashName ++ "\x7d"

/-- The character class `[a-z0-9\-]` of the validation pattern. -/
def isLowerAlnumHyphen (c : Char) : Bool :=
  ('a' ≤ c && c ≤ 'z') || ('0' ≤ c && c ≤ '9') || c = '-'

/-- Match a literal at the head of the input, returning the remainder. -/
def matchLit : List Char → List Char → Option (List Char)
  | [], l => some l
  | _ :: _, [] => none
  | a :: as, b :: bs => if a = b then matchLit as bs else none

/-- Expect a colon at the head of the input. -/
def expectColon : List Char → Option (List Char)
  | ':' :: rest => some rest
  | _ => none

/-- Greedy one-or-more character-class group (`[a-z0-9\-]+`). -/
def classGroup (l : List Char) : Option (List Char × List Char) :=
  if (l.takeWhile isLowerAlnumHyphen).isEmpty then none
  else some (l.takeWhile isLowerAlnumHyphen, l.dropWhile isLowerAlnumHyphen)


/-- Recognizer for the validation regular expression of
`create_url_from_cid`, returning the `field` group on success:
`template-ipfs://{ipfscid:(?P<version>[01]):(?P<codec>[a-z0-9\-]+):`
`(?P<field>[a-z0-9\-]+):(?P<hash>[a-z0-9\-]+)}` under `re.match` (a prefix
match: trailing text after the closing brace is allowed; the greedy classes
stop at the colons and brace, which are outside the class). -/
def arc19UrlMatch (url : String) : Option String :=
  (matchLit "template-ipfs://\x7bipfscid:".data url.data).bind fun r0 =>
    match r0 with
    | [] => none
    | v :: r1 =>
      if v = '0' || v = '1' then
        (expectColon r1).bind fun r2 =>
        (classGroup r2).bind fun cg =>
        (expectColon cg.2).bind fun r4 =>
        (classGroup r4).bind fun fg =>
        (expectColon fg.2).bind fun r6 =>
        (classGroup r6).bind fun hg =>
        match hg.2 with
        | '\x7d' :: _ => some (String.mk fg.1)
        | _ => none
      else none

/-- Embedding of `ARC19.create_url_from_cid`: build the template URL and
assert that the validation pattern matches it (`none` models an exception
from any step, including a failed assertion). -/
def create_url_from_cid (cid : String) : Option String :=
  match version_from_cid cid with
  | none => none
  | some version =>
    match codec_from_cid cid with
    | none => none
    | some codec =>
      match hash_from_cid cid with
      | none => none
      | some hashName =>
        if (arc19UrlMatch (arc19Url version codec hashName)).isSome
        then some (arc19Url version codec hashName)
        else none

/-- Matching a literal against itself followed by anything succeeds. -/
theorem matchLit_self_append (lit rest : List Char) :
    matchLit lit (lit ++ rest) = some rest := by
  induction lit with
  | nil => rfl
  | cons a as ih => simp [matchLit, ih]

/-- `takeWhile`/`dropWhile` on a satisfying block followed by a failing
character. -/
theorem takeWhile_block (p : Char → Bool) (g : List Char) (x : Char)
    (rest : List Char) (hall : g.all p = true) (hx : p x = false) :
    (g ++ x :: rest).takeWhile p = g ∧ (g ++ x :: rest).dropWhile p = x :: rest := by
  induction g with
  | nil => simp [List.takeWhile, List.dropWhile, hx]
  | cons a as ih =>
    simp only [List.all_cons, Bool.and_eq_true] at hall
    have := ih hall.2
    simp [List.takeWhile, List.dropWhile, hall.1, this.1, this.2]

/-- `classGroup` on a non-empty satisfying block followed by a failing
character returns the block and the remainder. -/
theorem classGroup_block (g : List Char) (x : Char) (rest : List Char)
    (hne : g ≠ []) (hall : g.all isLowerAlnumHyphen = true)
    (hx : isLowerAlnumHyphen x = false) :
    classGroup (g ++ x :: rest) = some (g, x :: rest) := by
  obtain ⟨htake, hdrop⟩ := takeWhile_block isLowerAlnumHyphen g x rest hall hx
  unfold classGroup
  rw [htake, hdrop]
  rw [if_neg (by simpa using hne)]

/-- The recognizer accepts every URL assembled from a version character in
`[01]` and non-empty `[a-z0-9\-]+` codec and hash names, extracting the
field `"reserve"`. -/
theorem arc19UrlMatch_parts (vc : Char) (codecL hashL : List Char)
    (hv : vc = '0' ∨ vc = '1')
    (hcne : codecL ≠ []) (hcall : codecL.all isLowerAlnumHyphen = true)
    (hhne : hashL ≠ []) (hhall : hashL.all isLowerAlnumHyphen = true) :
    arc19UrlMatch (String.mk ("template-ipfs://\x7bipfscid:".data
      ++ vc :: ':' :: (codecL ++ ':' :: ("reserve".data
        ++ ':' :: (hashL ++ ['\x7d']))))) = some "reserve" := by
  have hvc : (vc = '0' || vc = '1') = true := by
    rcases hv with h | h <;> simp [h]
  have hcg1 := classGroup_block codecL ':'
    ("reserve".data ++ ':' :: (hashL ++ ['\x7d'])) hcne hcall (by decide)
  have hcg2 := classGroup_block "reserve".data ':' (hashL ++ ['\x7d'])
    (by decide) (by decide) (by decide)
  have hcg3 := classGroup_block hashL '\x7d' [] hhne hhall (by decide)
  unfold arc19UrlMatch
  rw [show (String.mk ("template-ipfs://\x7bipfscid:".data
      ++ vc :: ':' :: (codecL ++ ':' :: ("reserve".data
        ++ ':' :: (hashL ++ ['\x7d']))))).data
    = "template-ipfs://\x7bipfscid:".data
      ++ vc :: ':' :: (codecL ++ ':' :: ("reserve".data
        ++ ':' :: (hashL ++ ['\x7d']))) from rfl]
  rw [matchLit_self_append]
  simp only [Option.some_bind, hvc, if_true, expectColon, hcg1, hcg2]
  rw [show (hashL ++ ['\x7d']) = hashL ++ '\x7d' :: [] from rfl, hcg3]
  rfl

/-- A successful table lookup returns the name of some table entry. -/
theorem lookupTable_mem (t : List (Nat × String)) (code : Nat) (name : String)
    (h : lookupTable t code = some name) : ∃ e ∈ t, e.2 = name := by
  unfold lookupTable at h
  cases hf : t.find? (fun e => e.1 = code) with
  | none => rw [hf] at h; cases h
  | some e =>
    rw [hf] at h
    injection h with h
    exact ⟨e, List.mem_of_find?_eq_some hf, h⟩

/-- Every codec name in the embedded table is a non-empty `[a-z0-9\-]+` word. -/
theorem codecTable_names :
    ∀ e ∈ codecTable, e.2.data ≠ [] ∧ e.2.data.all isLowerAlnumHyphen = true := by
  decide

/-- Every multihash name in the embedded table is a non-empty `[a-z0-9\-]+` word. -/
theorem mhNameTable_names :
    ∀ e ∈ mhNameTable, e.2.data ≠ [] ∧ e.2.data.all isLowerAlnumHyphen = true := by
  decide

/-- The codec of a CID decoded by the v1 branch comes from the codec table. -/
theorem cidDecodeV1_codec (rest : List Char) (c : CIDDecoded)
    (h : cidDecodeV1 rest = some c) :
    ∃ code, lookupTable codecTable code = some c.codec := by
  unfold cidDecodeV1 at h
  split at h
  · cases h
  next ds hmapm =>
    split at h
    · cases h
    · split at h
      next ver r1 hvar =>
        split at h
        · split at h
          next code r2 hvar2 =>
            split at h
            next name hname =>
              injection h with h
              subst h
              exact ⟨code, hname⟩
            next => cases h
          next => cases h
        · cases h
      next => cases h

/-- The codec of any decoded CID is `dag-pb` (v0) or a codec-table name (v1). -/
theorem cidDecode_codec (s : String) (c : CIDDecoded) (h : cidDecode s = some c) :
    c.codec = "dag-pb" ∨ ∃ code, lookupTable codecTable code = some c.codec := by
  unfold cidDecode at h
  split at h
  · split at h
    next bytes hb58 =>
      injection h with h
      subst h
      exact Or.inl rfl
    next => cases h
  · split at h
    next rest heq => exact Or.inr (cidDecodeV1_codec rest c h)
    next => cases h


/-- Strings with equal character data are equal. -/
theorem string_eq_of_data (s t : String) (h : s.data = t.data) : s = t := by
  cases s; cases t; exact congrArg String.mk h

/-- Character data of a string concatenation. -/
theorem string_data_append (s t : String) : (s ++ t).data = s.data ++ t.data := rfl

/-- C9: for every CID whose decoded version is 0 or 1 and whose codec and
multihash-function names consist only of lowercase letters, digits and
hyphens, the assertion inside `create_url_from_cid` holds: the built URL
matches the ARC-19 template regular expression with field `reserve`, and the
function returns it. -/
theorem create_url_from_cid_spec (cid : String) (v : Nat) (codec hashName : String)
    (hv : version_from_cid cid = some v)
    (hv01 : v = 0 ∨ v = 1)
    (hc : codec_from_cid cid = some codec)
    (hca : codec.data.all isLowerAlnumHyphen = true)
    (hh : hash_from_cid cid = some hashName)
    (hha : hashName.data.all isLowerAlnumHyphen = true) :
    arc19UrlMatch (arc19Url v codec hashName) = some "reserve" ∧
    create_url_from_cid cid = some (arc19Url v codec hashName) := by
  have hcne : codec.data ≠ [] := by
    unfold codec_from_cid at hc
    cases hcd : cidDecode cid with
    | none => rw [hcd] at hc; cases hc
    | some c =>
      rw [hcd] at hc
      injection hc with hc
      subst hc
      rcases cidDecode_codec cid c hcd with hdag | ⟨code, hlook⟩
      · rw [hdag]; decide
      · obtain ⟨e, he, hename⟩ := lookupTable_mem _ _ _ hlook
        rw [← hename]
        exact (codecTable_names e he).1
  have hhne : hashName.data ≠ [] := by
    unfold hash_from_cid at hh
    split at hh
    · cases hh
    · split at hh
      · cases hh
      · obtain ⟨e, he, hename⟩ := lookupTable_mem _ _ _ hh
        rw [← hename]
        exact (mhNameTable_names e he).1
  have h0 : ("0" : String).data = ['0'] := rfl
  have h1 : ("1" : String).data = ['1'] := rfl
  have hcol : (":" : String).data = [':'] := rfl
  have hres : (":reserve:" : String).data = ':' :: ("reserve".data ++ [':']) := rfl
  have hbrace : ("\x7d" : String).data = ['\x7d'] := rfl
  have hmatch : arc19UrlMatch (arc19Url v codec hashName) = some "reserve" := by
    rcases hv01 with hveq | hveq <;> subst hveq
    · have hurl : arc19Url 0 codec hashName
          = String.mk ("template-ipfs://\x7bipfscid:".data
            ++ '0' :: ':' :: (codec.data ++ ':' :: ("reserve".data
              ++ ':' :: (hashName.data ++ ['\x7d'])))) := by
        unfold arc19Url
        rw [show natToString 0 = "0" from rfl]
        apply string_eq_of_data
        simp only [string_data_append, h0, hcol, hres, hbrace, List.append_assoc,
          List.cons_append, List.singleton_append, List.nil_append]
      rw [hurl]
      exact arc19UrlMatch_parts '0' codec.data hashName.data (Or.inl rfl)
        hcne hca hhne hha
    · have hurl : arc19Url 1 codec hashName
          = String.mk ("template-ipfs://\x7bipfscid:".data
            ++ '1' :: ':' :: (codec.data ++ ':' :: ("reserve".data
              ++ ':' :: (hashName.data ++ ['\x7d'])))) := by
        unfold arc19Url
        rw [show natToString 1 = "1" from rfl]
        apply string_eq_of_data
        simp only [string_data_append, h1, hcol, hres, hbrace, List.append_assoc,
          List.cons_append, List.singleton_append, List.nil_append]
      rw [hurl]
      exact arc19UrlMatch_parts '1' codec.data hashName.data (Or.inr rfl)
        hcne hca hhne hha
  refine ⟨hmatch, ?_⟩
  unfold create_url_from_cid
  simp only [hv, hc, hh]
  rw [if_pos (by rw [hmatch]; rfl)]

/-- C9 witness: the specification applied to the concrete sha2-256 CIDv1
`c1WitCid` (version 1, codec `dag-pb`, hash `sha2-256`). -/
theorem create_url_from_cid_spec_witness :
    create_url_from_cid c1WitCid = some (arc19Url 1 "dag-pb" "sha2-256") := by
  have h := create_url_from_cid_spec c1WitCid 1 "dag-pb" "sha2-256"
    (by rfl) (Or.inr rfl) (by rfl) (by decide) (by rfl) (by decide)
  exact h.2

/-! ## C10: `AlgorandMCPServer._register_tools` (src/MCP_Server/server.py)

Python values are modelled by `PyVal`; the Algorand clients and the other
SDK calls are a single environment oracle `call` that may raise.  Every
registered tool handler is `mkToolHandler errHead body`: the entire handler
body sits inside the `try`, and the `except Exception` arm renders the
exception into a single `TextContent`. -/

/-- Model of Python values as they flow through the MCP handlers. -/
inductive PyVal where
  | pnone : PyVal
  | pbool : Bool → PyVal
  | pint : Int → PyVal
  | pfloat : Rat → PyVal
  | pstr : String → PyVal
  | plist : List PyVal → PyVal
  | pdict : List (String × PyVal) → PyVal
deriving Repr

/-- Python exception rendered as `str(e)`. -/
abbrev PyExc := String

/-- Python truthiness. -/
def pyTruthy : PyVal → Bool
  | .pnone => false
  | .pbool b => b
  | .pint n => n ≠ 0
  | .pfloat q => q ≠ 0
  | .pstr s => s ≠ ""
  | .plist l => !l.isEmpty
  | .pdict l => !l.isEmpty

/-- Python `all([...])` over a literal list of values. -/
def pyAllTruthy (l : List PyVal) : Bool := l.all pyTruthy

/-- `arguments.get(key)`: `None` when absent. -/
def argGet (args : List (String × PyVal)) (k : String) : PyVal :=
  match args.find? (fun kv => kv.1 = k) with
  | some kv => kv.2
  | none => .pnone

/-- `arguments.get(key, default)`. -/
def argGetD (args : List (String × PyVal)) (k : String) (d : PyVal) : PyVal :=
  match args.find? (fun kv => kv.1 = k) with
  | some kv => kv.2
  | none => d

/-- Python dict subscript `v[k]` (raises `KeyError`/`TypeError`). -/
def pySubscript (v : PyVal) (k : String) : Except PyExc PyVal :=
  match v with
  | .pdict l =>
    match l.find? (fun kv => kv.1 = k) with
    | some kv => .ok kv.2
    | none => .error ("KeyError: " ++ k)
  | _ => .error "TypeError: object is not subscriptable"

/-- Python `v.get(k, default)` on a dict value. -/
def pyDictGetD (v : PyVal) (k : String) (d : PyVal) : Except PyExc PyVal :=
  match v with
  | .pdict l =>
    match l.find? (fun kv => kv.1 = k) with
    | some kv => .ok kv.2
    | none => .ok d
  | _ => .error "AttributeError: get"

/-- Python `int(v)` (string parsing restricted to integer literals). -/
def pyInt : PyVal → Except PyExc Int
  | .pint n => .ok n
  | .pbool b => .ok (if b then 1 else 0)
  | .pfloat q => .ok q.floor
  | .pstr s =>
    match s.toInt? with
    | some n => .ok n
    | none => .error "ValueError: invalid literal for int()"
  | .pnone => .error "TypeError: int() argument is None"
  | _ => .error "TypeError: int() argument"

/-- Python `float(v)` (string parsing restricted to integer literals). -/
def pyFloat : PyVal → Except PyExc Rat
  | .pfloat q => .ok q
  | .pint n => .ok n
  | .pbool b => .ok (if b then 1 else 0)
  | .pstr s =>
    match s.toInt? with
    | some n => .ok n
    | none => .error "ValueError: could not convert string to float"
  | .pnone => .error "TypeError: float() argument is None"
  | _ => .error "TypeError: float() argument"

/-- Python `len(v)`. -/
def pyLen : PyVal → Except PyExc Nat
  | .plist l => .ok l.length
  | .pdict l => .ok l.length
  | .pstr s => .ok s.length
  | _ => .error "TypeError: object has no len()"

/-- Python tuple/list indexing `v[i]`. -/
def pyIndex (v : PyVal) (i : Nat) : Except PyExc PyVal :=
  match v with
  | .plist l =>
    match l.get? i with
    | some x => .ok x
    | none => .error "IndexError"
  | _ => .error "TypeError: object is not indexable"

/-- Iterating a Python value as a list. -/
def pyIterList : PyVal → Except PyExc (List PyVal)
  | .plist l => .ok l
  | _ => .error "TypeError: object is not iterable"

/-- `algosdk.util.microalgos_to_algos`. -/
def microalgos_to_algos (n : Int) : Rat := (n : Rat) / 1000000

/-- `algosdk.util.algos_to_microalgos`. -/
def algos_to_microalgos (q : Rat) : Int := (q * 1000000).floor

/-- Decimal rendering of an integer. -/
def intToString (n : Int) : String :=
  if n < 0 then "-" ++ natToString n.natAbs else natToString n.natAbs

/-- Rendering of a rational (stands in for Python float formatting). -/
def ratToString (q : Rat) : String :=
  intToString q.num ++ "/" ++ natToString q.den

mutual

/-- `json.dumps` of a handler result. -/
def pyValToJson : PyVal → String
  | .pnone => "null"
  | .pbool true => "true"
  | .pbool false => "false"
  | .pint n => intToString n
  | .pfloat q => ratToString q
  | .pstr s => "\"" ++ jsonEscape s ++ "\""
  | .plist l => "[" ++ pyListToJson l ++ "]"
  | .pdict l => "\x7b" ++ pyDictToJson l ++ "\x7d"

/-- Comma-separated JSON rendering of a list. -/
def pyListToJson : List PyVal → String
  | [] => ""
  | [v] => pyValToJson v
  | v :: rest => pyValToJson v ++ ", " ++ pyListToJson rest

/-- Comma-separated JSON rendering of a dict. -/
def pyDictToJson : List (String × PyVal) → String
  | [] => ""
  | [(k, v)] => "\"" ++ jsonEscape k ++ "\": " ++ pyValToJson v
  | (k, v) :: rest =>
    "\"" ++ jsonEscape k ++ "\": " ++ pyValToJson v ++ ", " ++ pyDictToJson rest

end

/-- An MCP `TextContent` message. -/
structure TextContent where
  type : String
  text : String
deriving DecidableEq, Repr

/-- Arguments dictionary of a tool call. -/
abbrev ToolArgs := List (String × PyVal)

/-- Environment of the MCP server: the configured network and the oracle for
every SDK/client call, each of which may raise. -/
structure MCPEnv where
  network : String
  call : String → List PyVal → Except PyExc PyVal

/-- A handler body: the code inside the `try` of one registered tool. -/
abbrev ToolBody := ToolArgs → MCPEnv → Except PyExc PyVal

/-- The uniform registration pattern of `_register_tools`: run the body
inside `try`, render the result (or the caught exception) as a one-element
`TextContent` list. -/
def mkToolHandler (errHead : String) (body : ToolBody) :
    ToolArgs → MCPEnv → List TextContent :=
  fun args env =>
    match body args env with
    | .ok v => [⟨"text", pyValToJson v⟩]
    | .error e => [⟨"text", errHead ++ e⟩]

/-- Body of the `create_account` tool (src/MCP_Server/server.py lines 96-120). -/
def create_account_body : ToolBody := fun _ env => do
  let pair ← env.call "account.generate_account" []
  let private_key ← pyIndex pair 0
  let address ← pyIndex pair 1
  let account_mnemonic ← env.call "mnemonic.from_private_key" [private_key]
  let created_at ← env.call "datetime.now.isoformat" []
  pure (.pdict [("address", address), ("private_key", private_key),
    ("mnemonic", account_mnemonic), ("network", .pstr env.network),
    ("created_at", created_at)])

/-- Body of the `get_account_info` tool (lines 122-164), including the inner
bare `except` that defaults the transaction count to 0. -/
def get_account_info_body : ToolBody := fun args env => do
  let address := argGet args "address"
  if !(pyTruthy address) then .error "ValueError: Address is required"
  else do
    let account_info ← env.call "algod.account_info" [address]
    let transactions_count : PyVal :=
      match (do
        let indexer_info ← env.call "indexer.account_info" [address]
        let acct ← pyDictGetD indexer_info "account" (.pdict [])
        let apps ← pyDictGetD acct "created-apps" (.plist [])
        pyLen apps : Except PyExc Nat) with
      | .ok n => .pint n
      | .error _ => .pint 0
    let amount ← pySubscript account_info "amount"
    let amount_int ← pyInt amount
    let min_balance ← pySubscript account_info "min-balance"
    let min_int ← pyInt min_balance
    let round ← pySubscript account_info "round"
    let status ← pySubscript account_info "status"
    let assets ← pyDictGetD account_info "assets" (.plist [])
    let created_apps ← pyDictGetD account_info "created-apps" (.plist [])
    let apps_local ← pyDictGetD account_info "apps-local-state" (.plist [])
    let participation ← pyDictGetD account_info "participation" (.pdict [])
    pure (.pdict [("address", address),
      ("balance_algo", .pfloat (microalgos_to_algos amount_int)),
      ("balance_microalgo", amount),
      ("minimum_balance", .pfloat (microalgos_to_algos min_int)),
      ("round", round), ("status", status), ("assets", assets),
      ("created_apps", created_apps), ("apps_local_state", apps_local),
      ("participation", participation),
      ("transactions_count", transactions_count),
      ("network", .pstr env.network)])

/-- Body of the `restore_account_from_mnemonic` tool (lines 166-194). -/
def restore_account_body : ToolBody := fun args env => do
  let mnemonic_phrase := argGet args "mnemonic"
  if !(pyTruthy mnemonic_phrase) then .error "ValueError: Mnemonic phrase is required"
  else do
    let private_key ← env.call "mnemonic.to_private_key" [mnemonic_phrase]
    let address ← env.call "address_from_private_key" [private_key]
    let restored_at ← env.call "datetime.now.isoformat" []
    pure (.pdict [("address", address), ("private_key", private_key),
      ("mnemonic", mnemonic_phrase), ("network", .pstr env.network),
      ("restored_at", restored_at)])

/-- Body of the `send_payment` tool (lines 198-255). -/
def send_payment_body : ToolBody := fun args env => do
  let sender_private_key := argGet args "sender_private_key"
  let receiver_address := argGet args "receiver_address"
  let amount_algo ← pyFloat (argGetD args "amount_algo" (.pint 0))
  let note := argGetD args "note" (.pstr "")
  if !(pyAllTruthy [sender_private_key, receiver_address, .pfloat amount_algo]) then
    .error "ValueError: sender_private_key, receiver_address, and amount_algo are required"
  else do
    let sender_address ← env.call "address_from_private_key" [sender_private_key]
    let amount_microalgo := algos_to_microalgos amount_algo
    let params ← env.call "algod.suggested_params" []
    let txn : PyVal := .pdict [("sender", sender_address), ("sp", params),
      ("receiver", receiver_address), ("amt", .pint amount_microalgo),
      ("note", if pyTruthy note then note else .pnone)]
    let signed_txn ← env.call "txn.sign" [txn, sender_private_key]
    let tx_id ← env.call "algod.send_transaction" [signed_txn]
    let confirmed_txn ← env.call "transaction.wait_for_confirmation" [tx_id]
    let confirmed_round ← pySubscript confirmed_txn "confirmed-round"
    let inner1 ← pySubscript confirmed_txn "txn"
    let inner2 ← pySubscript inner1 "txn"
    let fee ← pySubscript inner2 "fee"
    pure (.pdict [("transaction_id", tx_id), ("sender", sender_address),
      ("receiver", receiver_address), ("amount_algo", .pfloat amount_algo),
      ("amount_microalgo", .pint amount_microalgo),
      ("confirmed_round", confirmed_round), ("fee", fee), ("note", note),
      ("network", .pstr env.network)])

/-- Body of the `get_transaction` tool (lines 257-283). -/
def get_transaction_body : ToolBody := fun args env => do
  let tx_id := argGet args "transaction_id"
  if !(pyTruthy tx_id) then .error "ValueError: transaction_id is required"
  else do
    let txn_info ← env.call "indexer.transaction" [tx_id]
    pure (.pdict [("transaction_id", tx_id), ("transaction_info", txn_info),
      ("network", .pstr env.network)])

/-- Body of the `create_asset` tool (lines 287-356). -/
def mcp_create_asset_body : ToolBody := fun args env => do
  let creator_private_key := argGet args "creator_private_key"
  let asset_name := argGet args "asset_name"
  let unit_name := argGet args "unit_name"
  let total_issuance ← pyInt (argGetD args "total_issuance" (.pint 1))
  let decimals ← pyInt (argGetD args "decimals" (.pint 0))
  let default_frozen := argGetD args "default_frozen" (.pbool false)
  let url := argGetD args "url" (.pstr "")
  let metadata_hash := argGet args "metadata_hash"
  if !(pyAllTruthy [creator_private_key, asset_name, unit_name]) then
    .error "ValueError: creator_private_key, asset_name, and unit_name are required"
  else do
    let creator_address ← env.call "address_from_private_key" [creator_private_key]
    let params ← env.call "algod.suggested_params" []
    let txn : PyVal := .pdict [("sender", creator_address), ("sp", params),
      ("total", .pint total_issuance), ("default_frozen", default_frozen),
      ("unit_name", unit_name), ("asset_name", asset_name),
      ("manager", creator_address), ("reserve", creator_address),
      ("freeze", creator_address), ("clawback", creator_address),
      ("url", url),
      ("metadata_hash", if pyTruthy metadata_hash then metadata_hash else .pnone),
      ("decimals", .pint decimals)]
    let signed_txn ← env.call "txn.sign" [txn, creator_private_key]
    let tx_id ← env.call "algod.send_transaction" [signed_txn]
    let confirmed_txn ← env.call "transaction.wait_for_confirmation" [tx_id]
    let asset_id ← pySubscript confirmed_txn "asset-index"
    let confirmed_round ← pySubscript confirmed_txn "confirmed-round"
    pure (.pdict [("transaction_id", tx_id), ("asset_id", asset_id),
      ("creator", creator_address), ("asset_name", asset_name),
      ("unit_name", unit_name), ("total_issuance", .pint total_issuance),
      ("decimals", .pint decimals), ("confirmed_round", confirmed_round),
      ("network", .pstr env.network)])

/-- Body of the `transfer_asset` tool (lines 358-410). -/
def transfer_asset_body : ToolBody := fun args env => do
  let sender_private_key := argGet args "sender_private_key"
  let receiver_address := argGet args "receiver_address"
  let asset_id ← pyInt (argGet args "asset_id")
  let amount ← pyInt (argGet args "amount")
  if !(pyAllTruthy [sender_private_key, receiver_address, .pint asset_id,
      .pint amount]) then
    .error "ValueError: All parameters are required"
  else do
    let sender_address ← env.call "address_from_private_key" [sender_private_key]
    let params ← env.call "algod.suggested_params" []
    let txn : PyVal := .pdict [("sender", sender_address), ("sp", params),
      ("receiver", receiver_address), ("amt", .pint amount),
      ("index", .pint asset_id)]
    let signed_txn ← env.call "txn.sign" [txn, sender_private_key]
    let tx_id ← env.call "algod.send_transaction" [signed_txn]
    let confirmed_txn ← env.call "transaction.wait_for_confirmation" [tx_id]
    let confirmed_round ← pySubscript confirmed_txn "confirmed-round"
    pure (.pdict [("transaction_id", tx_id), ("sender", sender_address),
      ("receiver", receiver_address), ("asset_id", .pint asset_id),
      ("amount", .pint amount), ("confirmed_round", confirmed_round),
      ("network", .pstr env.network)])

/-- Body of the `get_asset_info` tool (lines 412-436). -/
def get_asset_info_body : ToolBody := fun args env => do
  let asset_id ← pyInt (argGet args "asset_id")
  let asset_info ← env.call "algod.asset_info" [.pint asset_id]
  pure (.pdict [("asset_id", .pint asset_id), ("asset_info", asset_info),
    ("network", .pstr env.network)])

/-- Body of the `create_application` tool (lines 440-513). -/
def create_application_body : ToolBody := fun args env => do
  let creator_private_key := argGet args "creator_private_key"
  let approval_program := argGet args "approval_program"
  let clear_program := argGet args "clear_program"
  let global_schema := argGetD args "global_schema"
    (.pdict [("num_ints", .pint 0), ("num_byte_slices", .pint 0)])
  let local_schema := argGetD args "local_schema"
    (.pdict [("num_ints", .pint 0), ("num_byte_slices", .pint 0)])
  let app_args := argGetD args "app_args" (.plist [])
  if !(pyAllTruthy [creator_private_key, approval_program, clear_program]) then
    .error "ValueError: creator_private_key, approval_program, and clear_program are required"
  else do
    let creator_address ← env.call "address_from_private_key" [creator_private_key]
    let approval_result ← env.call "algod.compile" [approval_program]
    let approval_b64 ← pySubscript approval_result "result"
    let approval_binary ← env.call "base64.b64decode" [approval_b64]
    let clear_result ← env.call "algod.compile" [clear_program]
    let clear_b64 ← pySubscript clear_result "result"
    let clear_binary ← env.call "base64.b64decode" [clear_b64]
    let params ← env.call "algod.suggested_params" []
    let gints ← pySubscript global_schema "num_ints"
    let gbytes ← pySubscript global_schema "num_byte_slices"
    let lints ← pySubscript local_schema "num_ints"
    let lbytes ← pySubscript local_schema "num_byte_slices"
    let txn : PyVal := .pdict [("sender", creator_address), ("sp", params),
      ("on_complete", .pint 0), ("approval_program", approval_binary),
      ("clear_program", clear_binary),
      ("global_schema", .pdict [("num_ints", gints), ("num_byte_slices", gbytes)]),
      ("local_schema", .pdict [("num_ints", lints), ("num_byte_slices", lbytes)]),
      ("app_args", app_args)]
    let signed_txn ← env.call "txn.sign" [txn, creator_private_key]
    let tx_id ← env.call "algod.send_transaction" [signed_txn]
    let confirmed_txn ← env.call "transaction.wait_for_confirmation" [tx_id]
    let app_id ← pySubscript confirmed_txn "application-index"
    let confirmed_round ← pySubscript confirmed_txn "confirmed-round"
    let approval_hash ← pySubscript approval_result "hash"
    let clear_hash ← pySubscript clear_result "hash"
    pure (.pdict [("transaction_id", tx_id), ("application_id", app_id),
      ("creator", creator_address), ("confirmed_round", confirmed_round),
      ("approval_program_hash", approval_hash),
      ("clear_program_hash", clear_hash), ("network", .pstr env.network)])

/-- Body of the `call_application` tool (lines 515-573). -/
def call_application_body : ToolBody := fun args env => do
  let caller_private_key := argGet args "caller_private_key"
  let app_id ← pyInt (argGet args "app_id")
  let app_args := argGetD args "app_args" (.plist [])
  let accounts := argGetD args "accounts" (.plist [])
  let foreign_apps := argGetD args "foreign_apps" (.plist [])
  let foreign_assets := argGetD args "foreign_assets" (.plist [])
  if !(pyAllTruthy [caller_private_key, .pint app_id]) then
    .error "ValueError: caller_private_key and app_id are required"
  else do
    let caller_address ← env.call "address_from_private_key" [caller_private_key]
    let params ← env.call "algod.suggested_params" []
    let txn : PyVal := .pdict [("sender", caller_address), ("sp", params),
      ("index", .pint app_id), ("on_complete", .pint 0),
      ("app_args", app_args), ("accounts", accounts),
      ("foreign_apps", foreign_apps), ("foreign_assets", foreign_assets)]
    let signed_txn ← env.call "txn.sign" [txn, caller_private_key]
    let tx_id ← env.call "algod.send_transaction" [signed_txn]
    let confirmed_txn ← env.call "transaction.wait_for_confirmation" [tx_id]
    let confirmed_round ← pySubscript confirmed_txn "confirmed-round"
    let gdelta ← pyDictGetD confirmed_txn "global-state-delta" (.plist [])
    let ldelta ← pyDictGetD confirmed_txn "local-state-delta" (.plist [])
    let logs ← pyDictGetD confirmed_txn "logs" (.plist [])
    pure (.pdict [("transaction_id", tx_id), ("application_id", .pint app_id),
      ("caller", caller_address), ("confirmed_round", confirmed_round),
      ("global_state_delta", gdelta), ("local_state_delta", ldelta),
      ("logs", logs), ("network", .pstr env.network)])

/-- Body of the `get_application_info` tool (lines 575-599). -/
def get_application_info_body : ToolBody := fun args env => do
  let app_id ← pyInt (argGet args "app_id")
  let app_info ← env.call "algod.application_info" [.pint app_id]
  pure (.pdict [("application_id", .pint app_id),
    ("application_info", app_info), ("network", .pstr env.network)])

/-- Body of the `get_blockchain_status` tool (lines 603-630). -/
def get_blockchain_status_body : ToolBody := fun _ env => do
  let status ← env.call "algod.status" []
  let last_round ← pySubscript status "last-round"
  let last_cv ← pySubscript status "last-consensus-version"
  let next_cv ← pyDictGetD status "next-consensus-version" .pnone
  let next_cvr ← pyDictGetD status "next-consensus-version-round" .pnone
  let next_cvs ← pyDictGetD status "next-consensus-version-supported" .pnone
  let tslr ← pySubscript status "time-since-last-round"
  let catchup ← pySubscript status "catchup-time"
  let stopped ← pyDictGetD status "stopped-at-unsupported-round" (.pbool false)
  pure (.pdict [("network", .pstr env.network), ("last_round", last_round),
    ("last_consensus_version", last_cv), ("next_consensus_version", next_cv),
    ("next_consensus_version_round", next_cvr),
    ("next_consensus_version_supported", next_cvs),
    ("time_since_last_round", tslr), ("catchup_time", catchup),
    ("stopped_at_unsupported_round", stopped)])

/-- Body of the `get_block_info` tool (lines 632-661). -/
def get_block_info_body : ToolBody := fun args env => do
  let round_arg := argGet args "round"
  let round_number ←
    match round_arg with
    | .pnone => do
      let status ← env.call "algod.status" []
      pySubscript status "last-round"
    | v => do
      let n ← pyInt v
      pure (.pint n)
  let block_info ← env.call "algod.block_info" [round_number]
  pure (.pdict [("round", round_number), ("block_info", block_info),
    ("network", .pstr env.network)])

/-- Body of the `search_transactions` tool (lines 665-712). -/
def search_transactions_body : ToolBody := fun args env => do
  let address := argGet args "address"
  let asset_id := argGet args "asset_id"
  let min_amount := argGet args "min_amount"
  let max_amount := argGet args "max_amount"
  let before_time := argGet args "before_time"
  let after_time := argGet args "after_time"
  let limit ← pyInt (argGetD args "limit" (.pint 10))
  let p0 : List (String × PyVal) := [("limit", .pint limit)]
  let p1 := if pyTruthy address then p0 ++ [("address", address)] else p0
  let p2 ←
    if pyTruthy asset_id then do
      let n ← pyInt asset_id
      pure (p1 ++ [("asset-id", PyVal.pint n)])
    else pure p1
  let p3 ←
    if pyTruthy min_amount then do
      let n ← pyInt min_amount
      pure (p2 ++ [("currency-greater-than", PyVal.pint n)])
    else pure p2
  let p4 ←
    if pyTruthy max_amount then do
      let n ← pyInt max_amount
      pure (p3 ++ [("currency-less-than", PyVal.pint n)])
    else pure p3
  let p5 := if pyTruthy before_time then p4 ++ [("before-time", before_time)] else p4
  let p6 := if pyTruthy after_time then p5 ++ [("after-time", after_time)] else p5
  let response ← env.call "indexer.search_transactions" [.pdict p6]
  let transactions ← pySubscript response "transactions"
  let next_token ← pyDictGetD response "next-token" .pnone
  pure (.pdict [("search_params", .pdict p6), ("transactions", transactions),
    ("next_token", next_token), ("network", .pstr env.network)])

/-- Body of the `get_account_transactions` tool (lines 714-779), with the
per-transaction processing loop (its exceptions propagate to the outer
handler). -/
def get_account_transactions_body : ToolBody := fun args env => do
  let address := argGet args "address"
  let limit ← pyInt (argGetD args "limit" (.pint 50))
  if !(pyTruthy address) then .error "ValueError: address is required"
  else do
    let response ← env.call "indexer.search_transactions"
      [address, .pint limit]
    let txsVal ← pySubscript response "transactions"
    let txs ← pyIterList txsVal
    let processed ← txs.mapM (fun txn => do
      let tx_type ← pyDictGetD txn "tx-type" (.pstr "unknown")
      let idv ← pySubscript txn "id"
      let roundv ← pySubscript txn "confirmed-round"
      let round_time ← pySubscript txn "round-time"
      let timestamp ← env.call "datetime.fromtimestamp.isoformat" [round_time]
      let fee ← pySubscript txn "fee"
      let sender ← pySubscript txn "sender"
      let base : List (String × PyVal) := [("id", idv), ("type", tx_type),
        ("round", roundv), ("timestamp", timestamp), ("fee", fee),
        ("sender", sender)]
      match tx_type with
      | .pstr "pay" => do
        let pt ← pySubscript txn "payment-transaction"
        let receiver ← pySubscript pt "receiver"
        let amount ← pySubscript pt "amount"
        let amount_int ← pyInt amount
        pure (PyVal.pdict (base ++ [("receiver", receiver),
          ("amount", amount),
          ("amount_algo", .pfloat (microalgos_to_algos amount_int))]))
      | .pstr "axfer" => do
        let att ← pySubscript txn "asset-transfer-transaction"
        let aid ← pySubscript att "asset-id"
        let receiver ← pySubscript att "receiver"
        let amount ← pySubscript att "amount"
        pure (PyVal.pdict (base ++ [("asset_id", aid),
          ("receiver", receiver), ("amount", amount)]))
      | .pstr "appl" => do
        let at2 ← pySubscript txn "application-transaction"
        let aid ← pySubscript at2 "application-id"
        pure (PyVal.pdict (base ++ [("application_id", aid)]))
      | _ => pure (PyVal.pdict base))
    pure (.pdict [("address", address),
      ("transaction_count", .pint processed.length),
      ("transactions", .plist processed), ("network", .pstr env.network)])

/-- The fifteen tools registered by `_register_tools`: name, error-message
prefix text of the `except` arm, and handler body. -/
def registeredToolEntries : List (String × String × ToolBody) :=
  [("create_account", "Error creating account: ", create_account_body),
   ("get_account_info", "Error getting account info: ", get_account_info_body),
   ("restore_account_from_mnemonic", "Error restoring account: ", restore_account_body),
   ("send_payment", "Error sending payment: ", send_payment_body),
   ("get_transaction", "Error getting transaction: ", get_transaction_body),
   ("create_asset", "Error creating asset: ", mcp_create_asset_body),
   ("transfer_asset", "Error transferring asset: ", transfer_asset_body),
   ("get_asset_info", "Error getting asset info: ", get_asset_info_body),
   ("create_application", "Error creating application: ", create_application_body),
   ("call_application", "Error calling application: ", call_application_body),
   ("get_application_info", "Error getting application info: ", get_application_info_body),
   ("get_blockchain_status", "Error getting blockchain status: ", get_blockchain_status_body),
   ("get_block_info", "Error getting block info: ", get_block_info_body),
   ("search_transactions", "Error searching transactions: ", search_transactions_body),
   ("get_account_transactions", "Error getting account transactions: ", get_account_transactions_body)]

/-- C10: every registered tool handler is total at its interface: for every
argument dictionary and environment it returns a one-element `TextContent`
list; when the body raises, the exception is rendered into the handler's
error message rather than propagated (the handler's return type has no
exception channel). -/
theorem mcp_handlers_total (name errHead : String) (body : ToolBody)
    (hmem : (name, errHead, body) ∈ registeredToolEntries)
    (args : ToolArgs) (env : MCPEnv) :
    (mkToolHandler errHead body args env).length = 1 ∧
    (∀ v, body args env = .ok v →
      mkToolHandler errHead body args env = [⟨"text", pyValToJson v⟩]) ∧
    (∀ e, body args env = .error e →
      mkToolHandler errHead body args env = [⟨"text", errHead ++ e⟩]) := by
  unfold mkToolHandler
  refine ⟨?_, ?_, ?_⟩
  · cases h : body args env <;> simp
  · intro v hv; rw [hv]
  · intro e he; rw [he]

/-- Environment for the C10 witness: the node is unreachable, every client
call raises. -/
def mcpWitEnv : MCPEnv where
  network := "testnet"
  call := fun _ _ => .error "connection refused"

/-- C10 witness: the `create_account` handler on a failing node returns the
single error `TextContent`, and the `send_payment` handler on an empty
argument dictionary returns its single validation-error `TextContent`. -/
theorem mcp_handlers_total_witness :
    mkToolHandler "Error creating account: " create_account_body [] mcpWitEnv
      = [⟨"text", "Error creating account: connection refused"⟩] ∧
    (mkToolHandler "Error sending payment: " send_payment_body [] mcpWitEnv).length
      = 1 := by
  constructor
  · exact (mcp_handlers_total "create_account" "Error creating account: "
      create_account_body (List.mem_cons_self _ _) [] mcpWitEnv).2.2
      "connection refused" (by rfl)
  · exact (mcp_handlers_total "send_payment" "Error sending payment: "
      send_payment_body (by simp [registeredToolEntries]) [] mcpWitEnv).1
